import Mathlib

/-!
# swiss-knife: a verification development

A shallow embedding of the Go packages under `lib/` (the TLS RPC transport and its
leveled logger, the AES-GCM helpers, the domain and random-string helpers) together with
theorems about them.

Conventions of the embedding:

* a Go `[]byte` is a `List Nat` whose elements are below 256;
* a Go `error` is a value of `GoError`, `nil` being `none` in an `Option GoError`;
* effects on a `log.Logger`, a connection or a listener are explicit state;
* `os.Exit` and `panic` are explicit outcomes (`Exec`, `GoEnd`, `GoResult`).
-/

namespace SwissKnife

/-! ## Go errors -/

/-- The Go error values the embedded code creates or receives. -/
inductive GoError where
  /-- The value of `errors.New(s)`. -/
  | new (s : String)
  /-- The value of `fmt.Errorf(text ++ ": %w", inner)`: `text` is the formatted text before the
  colon. -/
  | wrapf (text : String) (inner : GoError)
  /-- The value `rpc.ServerError(s)`: an error string carried by an RPC response. -/
  | serverError (s : String)
  /-- The value `&net.OpError{Op: op, Net: net, Err: inner}`. -/
  | opError (op : String) (net : String) (inner : GoError)
  /-- The value `net.ErrClosed`. -/
  | errClosed
  /-- The value `&os.SyscallError{Syscall: syscall, Err: inner}`. -/
  | syscallError (syscall : String) (inner : GoError)
  /-- A `syscall.Errno`, by name and message. -/
  | errno (name : String) (text : String)
  deriving DecidableEq, Repr

/-- The method `Error()` of an error value. -/
def GoError.Error : GoError → String
  | .new s => s
  | .wrapf text inner => text ++ ": " ++ inner.Error
  | .serverError s => s
  | .opError op net inner => op ++ " " ++ net ++ ": " ++ inner.Error
  | .errClosed => "use of closed network connection"
  | .syscallError syscall inner => syscall ++ ": " ++ inner.Error
  | .errno _ text => text

/-- Go's `errors.Is(err, net.ErrClosed)`: follows the `Unwrap` chain. -/
def GoError.isErrClosed : GoError → Bool
  | .errClosed => true
  | .wrapf _ inner => inner.isErrClosed
  | .opError _ _ inner => inner.isErrClosed
  | .syscallError _ inner => inner.isErrClosed
  | _ => false

/-- Equality of the results of a Go function of two results, a value or an error, is
decidable. -/
instance instDecidableEqExcept {ε α : Type} [DecidableEq ε] [DecidableEq α] :
    DecidableEq (Except ε α)
  | .ok a, .ok b => if h : a = b then isTrue (by rw [h]) else isFalse (fun h2 => h (by cases h2; rfl))
  | .error a, .error b =>
    if h : a = b then isTrue (by rw [h]) else isFalse (fun h2 => h (by cases h2; rfl))
  | .ok _, .error _ => isFalse (fun h => by cases h)
  | .error _, .ok _ => isFalse (fun h => by cases h)

/-! ## logger.go -/

/-- The type `LogLevel` is a Go `int`. -/
abbrev LogLevel := Int

def LogLevelDebug : LogLevel := 0
def LogLevelInfo : LogLevel := 1
def LogLevelWarn : LogLevel := 2
def LogLevelError : LogLevel := 3
def LogLevelFatal : LogLevel := 4

/-- The method `LogLevel.String`. -/
def LogLevel.String (l : LogLevel) : String :=
  if l = LogLevelDebug then "DEBUG"
  else if l = LogLevelInfo then "INFO"
  else if l = LogLevelWarn then "WARN"
  else if l = LogLevelError then "ERROR"
  else if l = LogLevelFatal then "FATAL"
  else "UNKNOWN"

/-- One entry written by a `log.Logger` created with `log.LstdFlags`: the prefix in force and
the message. The date and time between them come from the clock at the time of writing. -/
structure LogEntry where
  pfx : String
  msg : String
  deriving DecidableEq, Repr

/-- The bytes of an entry for a given rendering `stamp` of the date and time
(`"2009/01/23 01:23:23 "`): prefix, stamp, then the message. -/
def LogEntry.render (stamp : String) (e : LogEntry) : String :=
  e.pfx ++ stamp ++ e.msg

/-- A Go `*log.Logger`: its prefix and what it has written to its writer, oldest first. -/
structure GoLogger where
  pfx : String
  out : List LogEntry
  deriving DecidableEq, Repr

/-- The call `log.New(w, pfx, log.LstdFlags)` on an empty writer. -/
def GoLogger.New (pfx : String) : GoLogger := { pfx := pfx, out := [] }

def GoLogger.SetPrefix (l : GoLogger) (p : String) : GoLogger := { l with pfx := p }

/-- The method `Logger.Output`: a newline is appended when the text does not end in one. -/
def GoLogger.Output (l : GoLogger) (s : String) : GoLogger :=
  let s1 := if s.data.getLast? = some '\n' then s else s ++ "\n"
  { l with out := l.out ++ [{ pfx := l.pfx, msg := s1 }] }

/-- Go's `fmt.Sprintln` on operands already formatted: spaces between them, a newline after. -/
def Sprintln (v : List String) : String := " ".intercalate v ++ "\n"

def GoLogger.Println (l : GoLogger) (v : List String) : GoLogger := l.Output (Sprintln v)

/-- The method `Logger.Printf`; `s` is the text `fmt.Sprintf(format, v...)`. -/
def GoLogger.Printf (l : GoLogger) (s : String) : GoLogger := l.Output s

structure DefaultLogger where
  infoLogger : GoLogger
  errorLogger : GoLogger
  level : LogLevel
  deriving DecidableEq, Repr

def NewDefaultLogger : DefaultLogger :=
  { infoLogger := GoLogger.New "[TLS-RPC] "
    errorLogger := GoLogger.New "[TLS-RPC] "
    level := LogLevelInfo }

namespace DefaultLogger

def SetLevel (dl : DefaultLogger) (level : LogLevel) : DefaultLogger := { dl with level := level }

def GetLevel (dl : DefaultLogger) : LogLevel := dl.level

def shouldLog (dl : DefaultLogger) (level : LogLevel) : Bool := decide (level ≥ dl.level)

def Debug (dl : DefaultLogger) (v : List String) : DefaultLogger :=
  if dl.shouldLog LogLevelDebug then
    { dl with infoLogger :=
        ((dl.infoLogger.SetPrefix "[TLS-RPC] DEBUG: ").Println v).SetPrefix "[TLS-RPC] " }
  else dl

def Debugf (dl : DefaultLogger) (s : String) : DefaultLogger :=
  if dl.shouldLog LogLevelDebug then
    { dl with infoLogger :=
        ((dl.infoLogger.SetPrefix "[TLS-RPC] DEBUG: ").Printf s).SetPrefix "[TLS-RPC] " }
  else dl

def Info (dl : DefaultLogger) (v : List String) : DefaultLogger :=
  if dl.shouldLog LogLevelInfo then
    { dl with infoLogger :=
        ((dl.infoLogger.SetPrefix "[TLS-RPC] INFO: ").Println v).SetPrefix "[TLS-RPC] " }
  else dl

def Infof (dl : DefaultLogger) (s : String) : DefaultLogger :=
  if dl.shouldLog LogLevelInfo then
    { dl with infoLogger :=
        ((dl.infoLogger.SetPrefix "[TLS-RPC] INFO: ").Printf s).SetPrefix "[TLS-RPC] " }
  else dl

def Warn (dl : DefaultLogger) (v : List String) : DefaultLogger :=
  if dl.shouldLog LogLevelWarn then
    { dl with errorLogger :=
        ((dl.errorLogger.SetPrefix "[TLS-RPC] WARN: ").Println v).SetPrefix "[TLS-RPC] " }
  else dl

def Warnf (dl : DefaultLogger) (s : String) : DefaultLogger :=
  if dl.shouldLog LogLevelWarn then
    { dl with errorLogger :=
        ((dl.errorLogger.SetPrefix "[TLS-RPC] WARN: ").Printf s).SetPrefix "[TLS-RPC] " }
  else dl

def Error (dl : DefaultLogger) (v : List String) : DefaultLogger :=
  if dl.shouldLog LogLevelError then
    { dl with errorLogger :=
        ((dl.errorLogger.SetPrefix "[TLS-RPC] ERROR: ").Println v).SetPrefix "[TLS-RPC] " }
  else dl

def Errorf (dl : DefaultLogger) (s : String) : DefaultLogger :=
  if dl.shouldLog LogLevelError then
    { dl with errorLogger :=
        ((dl.errorLogger.SetPrefix "[TLS-RPC] ERROR: ").Printf s).SetPrefix "[TLS-RPC] " }
  else dl

end DefaultLogger

/-- How a call that may reach `os.Exit` ends: it returns to its caller, or the process
terminates with an exit code. Both carry the state at that point. -/
inductive Exec (σ : Type) where
  | returned (s : σ)
  | exited (code : Int) (s : σ)
  deriving DecidableEq, Repr

namespace DefaultLogger

def Fatal (dl : DefaultLogger) (v : List String) : Exec DefaultLogger :=
  if dl.shouldLog LogLevelFatal then
    .exited 1 { dl with errorLogger := (dl.errorLogger.SetPrefix "[TLS-RPC] FATAL: ").Println v }
  else .returned dl

def Fatalf (dl : DefaultLogger) (s : String) : Exec DefaultLogger :=
  if dl.shouldLog LogLevelFatal then
    .exited 1 { dl with errorLogger := (dl.errorLogger.SetPrefix "[TLS-RPC] FATAL: ").Printf s }
  else .returned dl

end DefaultLogger

/-- The ten logging methods of the interface `Logger` (types.go). -/
inductive LogMethod where
  | Debug | Debugf | Info | Infof | Warn | Warnf | Error | Errorf | Fatal | Fatalf
  deriving DecidableEq, Repr

/-- The level a logging method passes to `shouldLog`. -/
def LogMethod.level : LogMethod → LogLevel
  | .Debug | .Debugf => LogLevelDebug
  | .Info | .Infof => LogLevelInfo
  | .Warn | .Warnf => LogLevelWarn
  | .Error | .Errorf => LogLevelError
  | .Fatal | .Fatalf => LogLevelFatal

/-- One call on a `Logger`: the method and its text. For a plain method (`Info`) the text is
what `fmt.Sprintln` makes of the operands, a space between two, without the final newline;
for a formatted one (`Infof`) it is the expansion of the format. -/
structure LogCall where
  method : LogMethod
  text : String
  deriving DecidableEq, Repr

/-- A `LogCall` carried out by a `DefaultLogger`. -/
def DefaultLogger.call (dl : DefaultLogger) (c : LogCall) : Exec DefaultLogger :=
  match c.method with
  | .Debug => .returned (dl.Debug [c.text])
  | .Debugf => .returned (dl.Debugf c.text)
  | .Info => .returned (dl.Info [c.text])
  | .Infof => .returned (dl.Infof c.text)
  | .Warn => .returned (dl.Warn [c.text])
  | .Warnf => .returned (dl.Warnf c.text)
  | .Error => .returned (dl.Error [c.text])
  | .Errorf => .returned (dl.Errorf c.text)
  | .Fatal => dl.Fatal [c.text]
  | .Fatalf => dl.Fatalf c.text

/-! ## The RPC transport: types.go, utils.go, tls_connection.go -/

/-- A Go `[]byte`. -/
abbrev Bytes := List Nat

/-- The text `fmt` gives a `[]byte` under `%v` and `%+v`: the elements in decimal, between
brackets, separated by spaces. -/
def fmtBytes (b : Bytes) : String := "[" ++ " ".intercalate (b.map toString) ++ "]"

/-- A value of the interface `Logger` (types.go), as seen from the transport: the calls it has
received, oldest first. What an implementation does with a call is its own business;
`DefaultLogger.call` is what the default one does. -/
abbrev Logger := List LogCall

namespace Logger

def Debug (l : Logger) (text : String) : Logger := l ++ [⟨.Debug, text⟩]
def Debugf (l : Logger) (text : String) : Logger := l ++ [⟨.Debugf, text⟩]
def Info (l : Logger) (text : String) : Logger := l ++ [⟨.Info, text⟩]
def Infof (l : Logger) (text : String) : Logger := l ++ [⟨.Infof, text⟩]
def Errorf (l : Logger) (text : String) : Logger := l ++ [⟨.Errorf, text⟩]

end Logger

/-- The calls of a `Logger` carried out by a `DefaultLogger`, in order; a call that exits the
process ends the run. -/
def DefaultLogger.run (dl : DefaultLogger) : List LogCall → Exec DefaultLogger
  | [] => .returned dl
  | c :: cs =>
    match dl.call c with
    | .returned dl1 => DefaultLogger.run dl1 cs
    | .exited code dl1 => .exited code dl1

/-- A network connection (`net.Conn`, `*tls.Conn`): its addresses, whether it has been closed
and how many times `Close` has been called on it. -/
structure Conn where
  remoteAddr : String
  localAddr : String
  closed : Bool
  closeCalls : Nat
  deriving DecidableEq, Repr

/-- The method `Close` of a connection. -/
def Conn.Close (c : Conn) : Conn := { c with closed := true, closeCalls := c.closeCalls + 1 }

/-- A listening socket (`net.Listener`): its address, whether it has been closed and how many
times `Close` has been called on it. -/
structure Listener where
  addr : String
  closed : Bool
  closeCalls : Nat
  deriving DecidableEq, Repr

/-- The method `Close` of a listener. -/
def Listener.Close (l : Listener) : Listener :=
  { l with closed := true, closeCalls := l.closeCalls + 1 }

/-- The struct `tlsRpcClient`. The field `conn` is never nil: the type is unexported and its
only constructor, `NewITlsRpcClient`, stores the connection `tls.Dial` returned. -/
structure tlsRpcClient where
  conn : Conn
  logger : Logger
  deriving DecidableEq, Repr

/-- The struct `tlsRpcServer`; `listener` is an interface value and may be nil. -/
structure tlsRpcServer where
  listener : Option Listener
  logger : Logger
  deriving DecidableEq, Repr

/-- How a service method ends: it returns, having stored `reply` through its reply pointer
(nothing stored leaves the empty slice), with an error or nil; or it panics. -/
inductive HandlerEnd where
  | ret (reply : Bytes) (err : Option GoError)
  | panic (v : String)
  deriving DecidableEq, Repr

/-- A service method of the shape the client calls: `func (args *[]byte, reply *[]byte) error`. -/
abbrev Handler := Bytes → HandlerEnd

/-- A receiver passed to `rpc.RegisterName`: the name of its type and those of its methods that
`net/rpc` finds suitable (exported, two arguments, the second a pointer, returning `error`). -/
structure Service where
  typeName : String
  methods : List (String × Handler)

/-- The service map of the process-wide `rpc.DefaultServer`: the registrations, oldest first. -/
abbrev ServiceMap := List (String × Service)

/-- The function `rpc.RegisterName`, on `rpc.DefaultServer` (`net/rpc`, `Server.register` with
`useName` set): it refuses an empty name, a receiver without a suitable method and a name
that is already in the map; otherwise it stores the receiver under the name. -/
def RegisterName (g : ServiceMap) (name : String) (rcvr : Service) : Option GoError × ServiceMap :=
  if name = "" then
    (some (.new ("rpc.Register: no service name for type " ++ rcvr.typeName)), g)
  else if rcvr.methods.isEmpty then
    (some (.new ("rpc.Register: type " ++ name ++ " has no exported methods of suitable type")), g)
  else if (g.lookup name).isSome then
    (some (.new ("rpc: service already defined: " ++ name)), g)
  else
    (none, g ++ [(name, rcvr)])

namespace tlsRpcServer

/-- The method `RegisterMethod`; `g` is the process-wide service map before the call, the last
component of the result the map after it. -/
def RegisterMethod (s : tlsRpcServer) (g : ServiceMap) (serviceName : String) (service : Service) :
    Option GoError × tlsRpcServer × ServiceMap :=
  match RegisterName g serviceName service with
  | (some err, g1) =>
    (some (.wrapf ("failed to register RPC service " ++ serviceName) err),
      { s with
        logger := s.logger.Errorf
          ("Failed to register RPC service " ++ serviceName ++ ": " ++ err.Error) },
      g1)
  | (none, g1) =>
    (none,
      { s with logger := s.logger.Infof ("Successfully registered RPC service: " ++ serviceName) },
      g1)

/-- The method `CloseServer`. -/
def CloseServer (s : tlsRpcServer) : tlsRpcServer :=
  match s.listener with
  | some l => { listener := some l.Close, logger := s.logger.Info "Closing TLS RPC server" }
  | none => s

def SetLogger (s : tlsRpcServer) (logger : Logger) : tlsRpcServer := { s with logger := logger }

end tlsRpcServer

/-- What one call of `s.listener.Accept()` returns. -/
inductive AcceptResult where
  | conn (c : Conn)
  | err (e : GoError)
  deriving DecidableEq, Repr

/-- Where `Serve` stands once the given `Accept` results have been consumed. -/
inductive ServeStatus where
  /-- The loop is blocked in the next `Accept`. -/
  | accepting
  /-- The loop was left by `break` and `Serve` returned. -/
  | returned
  /-- The call `s.listener.Addr()` on a nil listener panicked. -/
  | panicked
  deriving DecidableEq, Repr

/-- The state of a run of `Serve`: the server, the connections handed to
`go s.handleConnection(conn)` so far (oldest first) and the `Accept` results not consumed. -/
structure ServeRun where
  status : ServeStatus
  server : tlsRpcServer
  spawned : List Conn
  pending : List AcceptResult
  deriving DecidableEq, Repr

/-- The test of `Serve` on an `Accept` error:
`opErr, ok := err.(*net.OpError); ok && opErr.Op == "accept"`. -/
def isAcceptOpError : GoError → Bool
  | .opError op _ _ => op == "accept"
  | _ => false

namespace tlsRpcServer

/-- The `for` loop of `Serve`, run on the results of the successive calls of `Accept`. -/
def acceptLoop (s : tlsRpcServer) (spawned : List Conn) : List AcceptResult → ServeRun
  | [] => { status := .accepting, server := s, spawned := spawned, pending := [] }
  | .err e :: rest =>
    if isAcceptOpError e then
      { status := .returned
        server := { s with logger := s.logger.Info "Server stopped accepting connections" }
        spawned := spawned, pending := rest }
    else
      acceptLoop
        { s with logger := s.logger.Errorf ("Failed to accept connection: " ++ e.Error) }
        spawned rest
  | .conn c :: rest =>
    acceptLoop
      { s with
        logger :=
          (s.logger.Infof ("New client connected from " ++ c.remoteAddr)).Debugf
            ("Client connection details: " ++ c.remoteAddr ++ " -> " ++ c.localAddr) }
      (spawned ++ [c]) rest

/-- The method `Serve`, run on the results of the successive calls of `Accept`. -/
def Serve (s : tlsRpcServer) (accepts : List AcceptResult) : ServeRun :=
  match s.listener with
  | none => { status := .panicked, server := s, spawned := [], pending := accepts }
  | some l =>
    acceptLoop
      { s with
        logger :=
          (s.logger.Infof ("TLS RPC server started, listening on " ++ l.addr)).Debugf
            "Server configuration: TLS enabled, RPC protocol" }
      [] accepts

end tlsRpcServer

/-- The condition under which `Accept` fails because the listener was closed:
`errors.Is(err, net.ErrClosed)`. On a closed listener `(*net.TCPListener).Accept` returns
`&net.OpError{Op: "accept", ..., Err: net.ErrClosed}`. -/
def isListenerClosed (e : GoError) : Bool := e.isErrClosed

/-- The error `(*net.TCPListener).Accept` returns when the listener is closed. -/
def listenerClosedError : GoError := .opError "accept" "tcp" .errClosed

/-- An error `(*net.TCPListener).Accept` returns while the listener is open: the process has
run out of file descriptors. `Accept` wraps every failure of the system call in a
`*net.OpError` whose `Op` is `"accept"`. -/
def tooManyOpenFiles : GoError :=
  .opError "accept" "tcp" (.syscallError "accept4" (.errno "EMFILE" "too many open files"))

/-- A request as `net/rpc` reads it from a connection: the `ServiceMethod` of its header and
the argument of its body. -/
structure Request where
  serviceMethod : String
  args : Bytes
  deriving DecidableEq, Repr

/-- A response as `net/rpc` writes it: the `ServiceMethod` and `Error` of its header and the
reply of its body (the reply is the empty placeholder when `Error` is set). -/
structure Response where
  serviceMethod : String
  error : String
  reply : Bytes
  deriving DecidableEq, Repr

/-- The split `net/rpc` makes of a `ServiceMethod` at its last dot
(`strings.LastIndex(req.ServiceMethod, ".")`): the service name and the method name. -/
def splitServiceMethod (serviceMethod : String) : Option (String × String) :=
  let r := serviceMethod.data.reverse
  let m := r.takeWhile (fun c => c != '.')
  if m.length = r.length then none
  else some (String.mk (r.drop (m.length + 1)).reverse, String.mk m.reverse)

/-- The lookup of `net/rpc`'s `Server.readRequestHeader` in the service map. -/
def findMethod (g : ServiceMap) (serviceMethod : String) : Except GoError Handler :=
  match splitServiceMethod serviceMethod with
  | none => .error (.new ("rpc: service/method request ill-formed: " ++ serviceMethod))
  | some (serviceName, methodName) =>
    match g.lookup serviceName with
    | none => .error (.new ("rpc: can't find service " ++ serviceMethod))
    | some svc =>
      match svc.methods.lookup methodName with
      | none => .error (.new ("rpc: can't find method " ++ serviceMethod))
      | some h => .ok h

/-- How the server's handling of one request ends: a response is written, or the service
method panics. -/
inductive CallEnd where
  | response (r : Response)
  | panic (v : String)
  deriving DecidableEq, Repr

/-- One request handled by `net/rpc` (`Server.readRequest`, `service.call`,
`Server.sendResponse`): an unknown method is answered with the lookup error; otherwise the
method runs on a fresh reply value, and its error text, when not empty, is sent in place of
the reply. -/
def serveRequest (g : ServiceMap) (req : Request) : CallEnd :=
  match findMethod g req.serviceMethod with
  | .error e => .response { serviceMethod := req.serviceMethod, error := e.Error, reply := [] }
  | .ok h =>
    match h req.args with
    | .panic v => .panic v
    | .ret reply err =>
      let errmsg := match err with
        | some e => e.Error
        | none => ""
      if errmsg = "" then
        .response { serviceMethod := req.serviceMethod, error := "", reply := reply }
      else
        .response { serviceMethod := req.serviceMethod, error := errmsg, reply := [] }

/-- How a run of `rpc.ServeConn(conn)` ends. -/
inductive ServeConnEnd where
  /-- It returns: the peer hung up or sent what cannot be read as a request. Before that it has
  waited for the calls in flight and closed its codec, that is `conn`. -/
  | returned
  /-- A panic is raised on the goroutine that called it. -/
  | panicked (v : String)
  /-- A service method panics. `Server.ServeCodec` starts every call with
  `go service.call(...)`, so the panic is raised on a goroutine of its own. -/
  | callPanicked (v : String)
  deriving DecidableEq, Repr

/-- The function `rpc.ServeConn` on the requests a connection delivers, in order: the responses
written and how the run ends. -/
def ServeConn (g : ServiceMap) : List Request → List Response × ServeConnEnd
  | [] => ([], .returned)
  | req :: rest =>
    match serveRequest g req with
    | .panic v => ([], .callPanicked v)
    | .response r => (r :: (ServeConn g rest).1, (ServeConn g rest).2)

/-- How a goroutine ends: its function returns, or a panic that nothing recovers on the
goroutine it is raised on terminates the process. -/
inductive GoEnd (σ : Type) where
  | returned (s : σ)
  | crashed (v : String) (s : σ)
  deriving DecidableEq, Repr

namespace tlsRpcServer

/-- The method `handleConnection`, given how `rpc.ServeConn(conn)` ends. The two deferred
functions run, in reverse order, when the function returns or a panic unwinds its goroutine:
first the one calling `recover()`, then the one closing the connection. A panic on another
goroutine does not run them. -/
def handleConnection (s : tlsRpcServer) (conn : Conn) (e : ServeConnEnd) :
    GoEnd (tlsRpcServer × Conn) :=
  let l0 := (s.logger.Infof ("Serving RPC connection for client " ++ conn.remoteAddr)).Debugf
    ("Starting RPC handler for client " ++ conn.remoteAddr)
  match e with
  | .returned =>
    let conn1 := conn.Close
    let l1 := l0.Debugf ("RPC handler finished for client " ++ conn.remoteAddr)
    .returned
      ({ s with logger := l1.Infof ("Connection closed for client " ++ conn.remoteAddr) },
        conn1.Close)
  | .panicked v =>
    let l1 := l0.Errorf ("RPC handler panic for client " ++ conn.remoteAddr ++ ": " ++ v)
    .returned
      ({ s with logger := l1.Infof ("Connection closed for client " ++ conn.remoteAddr) },
        conn.Close)
  | .callPanicked v => .crashed v ({ s with logger := l0 }, conn)

end tlsRpcServer

/-- The method `Call` of an `rpc.Client` created on `conn`, the peer serving the connection
with the service map `g`: a closed connection fails the call locally, an `Error` in the
response comes back as `rpc.ServerError`, and a peer that dies without answering gives
`io.ErrUnexpectedEOF`. On a closed connection the error is `net.ErrClosed` from the write or
`rpc.ErrShutdown`, whichever goroutine of the client sees the closed connection first. -/
def rpcCall (conn : Conn) (g : ServiceMap) (serviceMethod : String) (args : Bytes) :
    Except GoError Bytes :=
  if conn.closed then .error .errClosed
  else
    match serveRequest g { serviceMethod := serviceMethod, args := args } with
    | .panic _ => .error (.new "unexpected EOF")
    | .response r => if r.error = "" then .ok r.reply else .error (.serverError r.error)

namespace tlsRpcClient

/-- The method `ConnectToRpcServerTls`; `g` is the service map of the process that serves the
connection `c.conn` at its other end. The deferred `client.Close()` closes the client's codec, whose `Close`
closes the connection the client was created on (`net/rpc`, `gobClientCodec.Close`). -/
def ConnectToRpcServerTls (c : tlsRpcClient) (g : ServiceMap) (serviceMethod : String)
    (args : Bytes) : Except GoError Bytes × tlsRpcClient :=
  let l0 := (c.logger.Infof ("Calling RPC method: " ++ serviceMethod)).Debugf
    ("RPC method " ++ serviceMethod ++ " called with args: " ++ fmtBytes args)
  match rpcCall c.conn g serviceMethod args with
  | .error err =>
    (.error (.wrapf ("failed to call RPC method " ++ serviceMethod) err),
      { conn := c.conn.Close
        logger := l0.Errorf ("RPC call failed for method " ++ serviceMethod ++ ": " ++ err.Error) })
  | .ok reply =>
    (.ok reply,
      { conn := c.conn.Close
        logger := (l0.Infof ("RPC call successful for method: " ++ serviceMethod)).Debugf
          ("RPC method " ++ serviceMethod ++ " returned: " ++ fmtBytes reply) })

/-- The method `CloseClient`; the test `c.conn != nil` holds for every client. -/
def CloseClient (c : tlsRpcClient) : tlsRpcClient :=
  { conn := c.conn.Close, logger := c.logger.Info "Closing TLS RPC client connection" }

def SetLogger (c : tlsRpcClient) (logger : Logger) : tlsRpcClient := { c with logger := logger }

end tlsRpcClient

/-- A certificate, by its DER bytes. -/
structure Certificate where
  raw : Bytes
  deriving DecidableEq, Repr

/-- A Go `*x509.CertPool`, by the certificates it holds. -/
abbrev CertPool := List Certificate

/-- The function `x509.NewCertPool`. -/
def NewCertPool : CertPool := []

/-- What the transport reads from outside the process. -/
structure Env where
  /-- The function `os.ReadFile`. -/
  readFile : String → Except GoError Bytes
  /-- The certificates `AppendCertsFromPEM` finds in PEM data: the `CERTIFICATE` blocks that
  `pem.Decode` yields and `x509.ParseCertificate` accepts; everything else is skipped. -/
  parseCerts : Bytes → List Certificate
  /-- The call `tls.Dial("tcp", address, &tls.Config{RootCAs: pool})`. -/
  dial : String → CertPool → Except GoError Conn
  /-- Whether `tls.LoadX509KeyPair(certPath, keyPath)` fails, and with what. -/
  loadKeyPair : String → String → Option GoError
  /-- The call `tls.Listen("tcp", ":" ++ port, config)`. -/
  listen : String → Except GoError Listener

/-- The method `(*x509.CertPool).AppendCertsFromPEM`: the pool with the certificates found
added, and whether any was found. -/
def AppendCertsFromPEM (env : Env) (pool : CertPool) (pemCerts : Bytes) : CertPool × Bool :=
  (pool ++ env.parseCerts pemCerts, !(env.parseCerts pemCerts).isEmpty)

/-- The function `loadCertPool` (utils.go). The boolean `AppendCertsFromPEM` returns is
dropped. -/
def loadCertPool (env : Env) (certFile : String) : Except GoError CertPool :=
  match env.readFile certFile with
  | .error err => .error (.wrapf ("failed to read cert " ++ certFile) err)
  | .ok certData => .ok (AppendCertsFromPEM env NewCertPool certData).1

/-- The function `NewITlsRpcClient`: the client or the error, and the calls its logger, a new
default logger, has received. -/
def NewITlsRpcClient (env : Env) (certPath address name : String) :
    Except GoError tlsRpcClient × Logger :=
  let logger : Logger := []
  match loadCertPool env certPath with
  | .error err =>
    (.error (.wrapf "failed to load cert pool" err),
      logger.Errorf ("Failed to load cert pool for client " ++ name ++ ": " ++ err.Error))
  | .ok certPool =>
    let l1 := (logger.Infof
      ("Connecting to TLS RPC server at " ++ address ++ " for client " ++ name)).Debugf
      ("TLS configuration loaded for client " ++ name)
    match env.dial address certPool with
    | .error err =>
      (.error (.wrapf ("failed to connect to server " ++ name) err),
        l1.Errorf ("Connection failed for client " ++ name ++ " to " ++ address ++ ": "
          ++ err.Error))
    | .ok conn =>
      let l2 := l1.Infof
        ("Successfully connected to TLS RPC server at " ++ address ++ " for client " ++ name)
      (.ok { conn := conn, logger := l2 }, l2)

/-- The function `NewITlsRpcServer`. -/
def NewITlsRpcServer (env : Env) (certPath keyPath port : String) : Except GoError tlsRpcServer :=
  match env.loadKeyPair certPath keyPath with
  | some err => .error (.wrapf "failed to load TLS certificate and key" err)
  | none =>
    match env.listen port with
    | .error err => .error (.wrapf ("failed to listen on port " ++ port) err)
    | .ok listener => .ok { listener := some listener, logger := [] }

/-! ## The service of the test file: tlc_test.go -/

/-- The reduction of an integer to a Go `int` of 64 bits (two's complement): what `+` leaves
after an overflow. -/
def wrapInt64 (x : Int) : Int :=
  (x + 9223372036854775808) % 18446744073709551616 - 9223372036854775808

/-- Whether an integer is a value of a Go `int` of 64 bits. -/
def isInt64 (x : Int) : Prop := -9223372036854775808 ≤ x ∧ x ≤ 9223372036854775807

instance (x : Int) : Decidable (isInt64 x) := by unfold isInt64; infer_instance

/-- The struct `Args` of the test; the fields are Go `int`s. -/
structure Args where
  A : Int
  B : Int
  deriving DecidableEq, Repr

/-- The struct `Reply` of the test. -/
structure Reply where
  Sum : Int
  deriving DecidableEq, Repr

/-- The bytes of an ASCII string. -/
def strBytes (s : String) : Bytes := s.data.map Char.toNat

/-- The decimal digits of a number, most significant first, as bytes; `fuel` bounds the number
of digits. -/
def formatNatAux : Nat → Nat → Bytes → Bytes
  | 0, _, acc => acc
  | fuel + 1, n, acc =>
    if n < 10 then (48 + n) :: acc
    else formatNatAux fuel (n / 10) ((48 + n % 10) :: acc)

def formatNat (n : Nat) : Bytes := formatNatAux (n + 1) n []

/-- The decimal text `encoding/json` writes for an integer (`strconv.AppendInt(b, v, 10)`). -/
def formatInt (v : Int) : Bytes :=
  if v < 0 then 45 :: formatNat v.natAbs else formatNat v.natAbs

/-- The call `json.Marshal(args)` on an `Args`: `{"A":<A>,"B":<B>}`. -/
def jsonMarshalArgs (a : Args) : Bytes :=
  strBytes "\x7b\"A\":" ++ formatInt a.A ++ strBytes ",\"B\":" ++ formatInt a.B ++ strBytes "\x7d"

/-- The call `json.Marshal(replyStruct)` on a `Reply`: `{"Sum":<Sum>}`. It never fails. -/
def jsonMarshalReply (r : Reply) : Bytes :=
  strBytes "\x7b\"Sum\":" ++ formatInt r.Sum ++ strBytes "\x7d"

def isDigitByte (b : Nat) : Bool := decide (48 ≤ b) && decide (b ≤ 57)

/-- The number a run of decimal digits stands for. -/
def digitsValue (ds : Bytes) : Nat := ds.foldl (fun acc d => 10 * acc + (d - 48)) 0

/-- An integer literal at the head of the input, as `encoding/json` reads one into a Go `int`:
an optional minus sign and decimal digits without a superfluous leading zero, of a value
that fits 64 bits. The result is the value and the input after the literal. -/
def parseNumber (cs : Bytes) : Option (Int × Bytes) :=
  let neg := cs.head? == some 45
  let cs1 := if neg then cs.tail else cs
  let ds := cs1.takeWhile isDigitByte
  let rest := cs1.dropWhile isDigitByte
  if ds.isEmpty then none
  else if ds.head? == some 48 && decide (1 < ds.length) then none
  else
    let v : Int := if neg then -(digitsValue ds : Int) else (digitsValue ds : Int)
    if decide (isInt64 v) then some (v, rest) else none

/-- The members of a JSON object after its opening brace, up to the closing brace that ends
the input: each a key between double quotes, a colon and an integer literal. -/
def parseMembers : Nat → Bytes → Option (List (Bytes × Int))
  | 0, _ => none
  | fuel + 1, cs =>
    if cs.head? == some 34 then
      let key := cs.tail.takeWhile (fun b => b != 34)
      let r := cs.tail.dropWhile (fun b => b != 34)
      if r.head? == some 34 && r.tail.head? == some 58 then
        match parseNumber r.tail.tail with
        | none => none
        | some (v, r2) =>
          if r2 == [125] then some [(key, v)]
          else if r2.head? == some 44 then
            (parseMembers fuel r2.tail).map (fun ms => (key, v) :: ms)
          else none
      else none
    else none

/-- A JSON document read as an object of integer members. This is the part of the grammar
of `encoding/json` the test exchanges: no white space between tokens, no escapes in keys, no
values other than integers. A document outside it is not read. -/
def parseObject (cs : Bytes) : Option (List (Bytes × Int)) :=
  if cs == [123, 125] then some []
  else if cs.head? == some 123 then parseMembers cs.length cs.tail
  else none

/-- The lower-case form of an ASCII letter. -/
def lowerByte (b : Nat) : Nat := if 65 ≤ b ∧ b ≤ 90 then b + 32 else b

/-- Whether a key of a document names a field: `encoding/json` matches without regard to case. -/
def keyMatches (key : Bytes) (field : String) : Bool :=
  key.map lowerByte == (strBytes field).map lowerByte

/-- The value a document gives a field starting from `init`: every member whose key names the
field is stored in turn, so the last one stays. -/
def fieldValue (ms : List (Bytes × Int)) (field : String) (init : Int) : Int :=
  ms.foldl (fun acc m => if keyMatches m.1 field then m.2 else acc) init

/-- The call `json.Unmarshal(data, &argsStruct)` on a zero `Args`; the error is what the
caller gets, the struct what is left in `argsStruct`. For a document that `parseObject` does
not read the struct is left zero here, where `encoding/json` skips white space and stores
the members it can; the documents `jsonMarshalArgs` writes are read as `encoding/json`
reads them. -/
def jsonUnmarshalArgs (data : Bytes) : Args × Option GoError :=
  match parseObject data with
  | none => ({ A := 0, B := 0 }, some (.new "json: cannot unmarshal"))
  | some ms => ({ A := fieldValue ms "A" 0, B := fieldValue ms "B" 0 }, none)

/-- The call `json.Unmarshal(data, &reply)` on a zero `Reply`. -/
def jsonUnmarshalReply (data : Bytes) : Reply × Option GoError :=
  match parseObject data with
  | none => ({ Sum := 0 }, some (.new "json: cannot unmarshal"))
  | some ms => ({ Sum := fieldValue ms "Sum" 0 }, none)

/-- The method `TestService.Add` of the test: the error of `json.Unmarshal` is dropped, the sum
is a Go `int` addition, and `json.Marshal` of a `Reply` does not fail. -/
def TestService.Add : Handler := fun args =>
  let argsStruct := (jsonUnmarshalArgs args).1
  let replyStruct : Reply := { Sum := wrapInt64 (argsStruct.A + argsStruct.B) }
  .ret (jsonMarshalReply replyStruct) none

/-- The receiver `new(TestService)`: its one method is `Add`. -/
def TestService : Service := { typeName := "*swissknife.TestService", methods := [("Add", TestService.Add)] }

/-! ## aes_gcm_encryption.go, with `crypto/aes` and `crypto/cipher` -/

/-- How a call that may panic ends: with a value, with an error, or in a panic. -/
inductive GoResult (α : Type) where
  | ok (a : α)
  | err (e : GoError)
  | panic (v : String)
  deriving DecidableEq, Repr

/-- The substitution table of AES (`sbox0` of `crypto/aes`). -/
def sbox0 : List Nat := [
    0x63, 0x7c, 0x77, 0x7b, 0xf2, 0x6b, 0x6f, 0xc5, 0x30, 0x01, 0x67, 0x2b, 0xfe, 0xd7, 0xab, 0x76,
    0xca, 0x82, 0xc9, 0x7d, 0xfa, 0x59, 0x47, 0xf0, 0xad, 0xd4, 0xa2, 0xaf, 0x9c, 0xa4, 0x72, 0xc0,
    0xb7, 0xfd, 0x93, 0x26, 0x36, 0x3f, 0xf7, 0xcc, 0x34, 0xa5, 0xe5, 0xf1, 0x71, 0xd8, 0x31, 0x15,
    0x04, 0xc7, 0x23, 0xc3, 0x18, 0x96, 0x05, 0x9a, 0x07, 0x12, 0x80, 0xe2, 0xeb, 0x27, 0xb2, 0x75,
    0x09, 0x83, 0x2c, 0x1a, 0x1b, 0x6e, 0x5a, 0xa0, 0x52, 0x3b, 0xd6, 0xb3, 0x29, 0xe3, 0x2f, 0x84,
    0x53, 0xd1, 0x00, 0xed, 0x20, 0xfc, 0xb1, 0x5b, 0x6a, 0xcb, 0xbe, 0x39, 0x4a, 0x4c, 0x58, 0xcf,
    0xd0, 0xef, 0xaa, 0xfb, 0x43, 0x4d, 0x33, 0x85, 0x45, 0xf9, 0x02, 0x7f, 0x50, 0x3c, 0x9f, 0xa8,
    0x51, 0xa3, 0x40, 0x8f, 0x92, 0x9d, 0x38, 0xf5, 0xbc, 0xb6, 0xda, 0x21, 0x10, 0xff, 0xf3, 0xd2,
    0xcd, 0x0c, 0x13, 0xec, 0x5f, 0x97, 0x44, 0x17, 0xc4, 0xa7, 0x7e, 0x3d, 0x64, 0x5d, 0x19, 0x73,
    0x60, 0x81, 0x4f, 0xdc, 0x22, 0x2a, 0x90, 0x88, 0x46, 0xee, 0xb8, 0x14, 0xde, 0x5e, 0x0b, 0xdb,
    0xe0, 0x32, 0x3a, 0x0a, 0x49, 0x06, 0x24, 0x5c, 0xc2, 0xd3, 0xac, 0x62, 0x91, 0x95, 0xe4, 0x79,
    0xe7, 0xc8, 0x37, 0x6d, 0x8d, 0xd5, 0x4e, 0xa9, 0x6c, 0x56, 0xf4, 0xea, 0x65, 0x7a, 0xae, 0x08,
    0xba, 0x78, 0x25, 0x2e, 0x1c, 0xa6, 0xb4, 0xc6, 0xe8, 0xdd, 0x74, 0x1f, 0x4b, 0xbd, 0x8b, 0x8a,
    0x70, 0x3e, 0xb5, 0x66, 0x48, 0x03, 0xf6, 0x0e, 0x61, 0x35, 0x57, 0xb9, 0x86, 0xc1, 0x1d, 0x9e,
    0xe1, 0xf8, 0x98, 0x11, 0x69, 0xd9, 0x8e, 0x94, 0x9b, 0x1e, 0x87, 0xe9, 0xce, 0x55, 0x28, 0xdf,
    0x8c, 0xa1, 0x89, 0x0d, 0xbf, 0xe6, 0x42, 0x68, 0x41, 0x99, 0x2d, 0x0f, 0xb0, 0x54, 0xbb, 0x16]

def subByte (b : Nat) : Nat := sbox0.getD b 0

/-- The product by `x` in the field of AES, on a byte. -/
def xtime (b : Nat) : Nat := if b < 128 then 2 * b else (2 * b - 256) ^^^ 0x1b

/-- The round constant of index `i`, from 1. -/
def rconAt (i : Nat) : Nat := Nat.iterate xtime (i - 1) 1

/-- The byte-wise exclusive or of two words. -/
def xorWord (a b : Bytes) : Bytes := List.zipWith (fun x y => x ^^^ y) a b

def rotWord (w : Bytes) : Bytes := w.tail ++ w.take 1

def subWord (w : Bytes) : Bytes := w.map subByte

/-- One step of the key expansion: the next word is appended to the words so far. -/
def expandStep (nk : Nat) (w : List Bytes) : List Bytes :=
  let i := w.length
  let prev := w.getD (i - 1) []
  let temp :=
    if i % nk = 0 then xorWord (subWord (rotWord prev)) [rconAt (i / nk), 0, 0, 0]
    else if 6 < nk ∧ i % nk = 4 then subWord prev
    else prev
  w ++ [xorWord (w.getD (i - nk) []) temp]

/-- The words of a key, four bytes each. -/
def keyWords (key : Bytes) : List Bytes :=
  (List.range (key.length / 4)).map (fun i => (key.drop (4 * i)).take 4)

/-- The key schedule of AES: `4 * (rounds + 1)` words, the rounds being `len(key)/4 + 6`. -/
def expandKey (key : Bytes) : List Bytes :=
  let nk := key.length / 4
  Nat.iterate (expandStep nk) (4 * (nk + 7) - nk) (keyWords key)

/-- The sixteen bytes of the round key of a round. -/
def roundKey (w : List Bytes) (r : Nat) : Bytes := ((w.drop (4 * r)).take 4).flatten

def addRoundKey (st rk : Bytes) : Bytes :=
  (List.range 16).map (fun i => st.getD i 0 ^^^ rk.getD i 0)

def subBytes (st : Bytes) : Bytes := (List.range 16).map (fun i => subByte (st.getD i 0))

/-- The state holds its columns one after the other; row `r` is rotated by `r` columns. -/
def shiftRows (st : Bytes) : Bytes :=
  (List.range 16).map (fun i => st.getD (4 * ((i / 4 + i % 4) % 4) + i % 4) 0)

def mixColumns (st : Bytes) : Bytes :=
  (List.range 16).map (fun i =>
    let a := fun r => st.getD (4 * (i / 4) + r % 4) 0
    let r := i % 4
    xtime (a r) ^^^ (xtime (a (r + 1)) ^^^ a (r + 1)) ^^^ a (r + 2) ^^^ a (r + 3))

/-- The encryption of one block of sixteen bytes under a key of 16, 24 or 32 bytes: the method
`Encrypt` of the block `aes.NewCipher(key)` returns. -/
def aesEncryptBlock (key : Bytes) (block : Bytes) : Bytes :=
  let w := expandKey key
  let nr := key.length / 4 + 6
  let st0 := addRoundKey block (roundKey w 0)
  let st := (List.range (nr - 1)).foldl
    (fun st r => addRoundKey (mixColumns (shiftRows (subBytes st))) (roundKey w (r + 1))) st0
  addRoundKey (shiftRows (subBytes st)) (roundKey w nr)

/-- The function `aes.NewCipher`: the block cipher of a key, which is kept as the key. -/
def NewCipher (key : Bytes) : Except GoError Bytes :=
  if key.length = 16 ∨ key.length = 24 ∨ key.length = 32 then .ok key
  else .error (.new ("crypto/aes: invalid key size " ++ toString key.length))

/-- The number a run of bytes stands for, the first byte being the most significant. -/
def bytesToNat (b : Bytes) : Nat := b.foldl (fun acc x => 256 * acc + x) 0

/-- The `n` bytes of a number, most significant first. -/
def natToBytes (n : Nat) (x : Nat) : Bytes :=
  (List.range n).map (fun i => (x / 256 ^ (n - 1 - i)) % 256)

/-- The product of two blocks in the field of GCM (NIST SP 800-38D, 6.3); a block is the
number its sixteen bytes stand for, so its leftmost bit is the bit of weight `2 ^ 127`. -/
def gcmMul (x y : Nat) : Nat :=
  ((List.range 128).foldl
    (fun (zv : Nat × Nat) i =>
      (if x.testBit (127 - i) then zv.1 ^^^ zv.2 else zv.1,
        if zv.2 % 2 = 0 then zv.2 / 2 else (zv.2 / 2) ^^^ (0xe1 <<< 120)))
    (0, y)).1

/-- A block of at most sixteen bytes filled with zeros on the right. -/
def padBlock (b : Bytes) : Bytes := b ++ List.replicate (16 - b.length) 0

/-- The function GHASH on a ciphertext without additional data: the blocks of the ciphertext,
the last one filled with zeros, then the block of the two lengths in bits. -/
def ghash (h : Nat) (ciphertext : Bytes) : Nat :=
  let y := (List.range ((ciphertext.length + 15) / 16)).foldl
    (fun y i => gcmMul (y ^^^ bytesToNat (padBlock ((ciphertext.drop (16 * i)).take 16))) h) 0
  gcmMul (y ^^^ (8 * ciphertext.length)) h

/-- The counter block of index `j`: the nonce, then `j` on 32 bits. -/
def counterBlock (nonce : Bytes) (j : Nat) : Bytes := nonce ++ natToBytes 4 (j % 4294967296)

/-- The key stream for `n` blocks of data: the encryptions of the counter blocks from 2 on. -/
def keyStream (key nonce : Bytes) (n : Nat) : Bytes :=
  ((List.range n).map (fun j => aesEncryptBlock key (counterBlock nonce (2 + j)))).flatten

/-- The counter mode of GCM: the data combined with the key stream. -/
def gcmCrypt (key nonce data : Bytes) : Bytes :=
  List.zipWith (fun x y => x ^^^ y) data (keyStream key nonce ((data.length + 15) / 16))

/-- The tag of a ciphertext, sixteen bytes. -/
def gcmTag (key nonce ciphertext : Bytes) : Bytes :=
  let h := bytesToNat (aesEncryptBlock key (List.replicate 16 0))
  natToBytes 16 (ghash h ciphertext ^^^ bytesToNat (aesEncryptBlock key (counterBlock nonce 1)))

/-- The nonce size of the AEAD `cipher.NewGCM` returns. -/
def gcmNonceSize : Nat := 12

/-- The tag size of the AEAD `cipher.NewGCM` returns. -/
def gcmTagSize : Nat := 16

/-- The longest plaintext `Seal` takes: `((1 << 32) - 2) * BlockSize`. -/
def gcmMaxPlaintext : Nat := 4294967294 * 16

/-- The function `cipher.NewGCM` on an AES block cipher; its block size is 16, so it does
not fail. -/
def NewGCM (block : Bytes) : Except GoError Bytes := .ok block

/-- The method `Seal(nil, nonce, plaintext, nil)` of the AEAD of a key. -/
def gcmSeal (key nonce plaintext : Bytes) : GoResult Bytes :=
  if nonce.length ≠ gcmNonceSize then .panic "crypto/cipher: incorrect nonce length given to GCM"
  else if gcmMaxPlaintext < plaintext.length then
    .panic "crypto/cipher: message too large for GCM"
  else
    let c := gcmCrypt key nonce plaintext
    .ok (c ++ gcmTag key nonce c)

/-- The method `Open(nil, nonce, ciphertext, nil)` of the AEAD of a key. -/
def gcmOpen (key nonce ciphertext : Bytes) : GoResult Bytes :=
  if nonce.length ≠ gcmNonceSize then .panic "crypto/cipher: incorrect nonce length given to GCM"
  else if ciphertext.length < gcmTagSize then
    .err (.new "cipher: message authentication failed")
  else if gcmMaxPlaintext + gcmTagSize < ciphertext.length then
    .err (.new "cipher: message authentication failed")
  else
    let tag := ciphertext.drop (ciphertext.length - gcmTagSize)
    let c := ciphertext.take (ciphertext.length - gcmTagSize)
    if gcmTag key nonce c = tag then .ok (gcmCrypt key nonce c)
    else .err (.new "cipher: message authentication failed")

/-- The reader `rand.Reader`, by what it delivers: the bytes it gives before it fails, and the
error it then fails with. -/
structure RandSource where
  bytes : Bytes
  err : GoError
  deriving DecidableEq, Repr

/-- The call `io.ReadFull(rand.Reader, buf)` on a buffer of `n` bytes: the buffer filled, or
the error when the reader fails before that. -/
def readFull (r : RandSource) (n : Nat) : Except GoError Bytes :=
  if n ≤ r.bytes.length then .ok (r.bytes.take n) else .error r.err

/-- The function `EncryptAESGCM`: the ciphertext and the nonce. -/
def EncryptAESGCM (rand : RandSource) (plaintext key : Bytes) : GoResult (Bytes × Bytes) :=
  match NewCipher key with
  | .error err => .err err
  | .ok block =>
    match NewGCM block with
    | .error err => .err err
    | .ok aesGCM =>
      match readFull rand gcmNonceSize with
      | .error err => .err err
      | .ok nonce =>
        match gcmSeal aesGCM nonce plaintext with
        | .ok ciphertext => .ok (ciphertext, nonce)
        | .err e => .err e
        | .panic v => .panic v

/-- The function `DecryptAESGCM`. -/
def DecryptAESGCM (ciphertext nonce key : Bytes) : GoResult Bytes :=
  match NewCipher key with
  | .error err => .err err
  | .ok block =>
    match NewGCM block with
    | .error err => .err err
    | .ok aesGCM => gcmOpen aesGCM nonce ciphertext

/-! ## strings.go -/

/-- The parts of a text between its dots, for the text as a list of characters: a text with
`n` dots has `n + 1` parts, some of them possibly empty. -/
def splitDots : List Char → List (List Char)
  | [] => [[]]
  | c :: cs =>
    if c = '.' then [] :: splitDots cs
    else
      match splitDots cs with
      | p :: ps => (c :: p) :: ps
      | [] => [[c]]

/-- The call `strings.Split(s, ".")`. -/
def Split (s : String) : List String := (splitDots s.data).map String.mk

/-- The function `ExtractMainDomain`: the two values it returns, or the panic of an index out
of range at `parts[1]`. -/
def ExtractMainDomain (domain : String) : GoResult (String × Option GoError) :=
  let parts := Split domain
  if parts.length < 3 then .ok ("", some (.new "domain must have at least 3 parts"))
  else
    match parts[1]? with
    | some part => .ok (part, none)
    | none => .panic "runtime error: index out of range [1]"

/-- The part in the middle of an odd number of parts. -/
def middlePart (parts : List String) : Option String :=
  if parts.length % 2 = 1 then parts[parts.length / 2]? else none

/-! ## random.go, with `crypto/rand` -/

/-- The constant `letterBytes`. -/
def letterBytes : String := "0123456789ABCDEFGHIJKLMNOPQRSTUVWXYZabcdefghijklmnopqrstuvwxyz"

/-- The random source after `n` of its bytes have been read. -/
def RandSource.skip (r : RandSource) (n : Nat) : RandSource := { r with bytes := r.bytes.drop n }

/-- The number of bits of a number (`big.Int.BitLen`); `fuel` bounds the number of bits. -/
def bitLenAux : Nat → Nat → Nat
  | 0, _ => 0
  | fuel + 1, n => if n = 0 then 0 else 1 + bitLenAux fuel (n / 2)

def bitLen (n : Nat) : Nat := bitLenAux n n

/-- The loop of `rand.Int`: `k` bytes are read, the first is cut to its `b` low bits, and the
number they stand for is returned when it is below `max`; otherwise the loop reads again.
It ends with the error of the source when the source fails. Every turn reads at least one
byte, and `fuel` is above the number of bytes the source delivers. -/
def randIntLoop (max k b : Nat) (err : GoError) : Nat → Bytes → Except GoError (Nat × Bytes)
  | 0, _ => .error err
  | fuel + 1, bs =>
    if k ≤ bs.length then
      let v := bytesToNat ((bs.headD 0 % 2 ^ b) :: (bs.take k).tail)
      if v < max then .ok (v, bs.drop k)
      else randIntLoop max k b err fuel (bs.drop k)
    else .error err

/-- The function `rand.Int(rand.Reader, max)`: a number below `max` and the source after the
reads, or the error of the source; a `max` that is not positive panics. -/
def randInt (r : RandSource) (max : Nat) : GoResult (Nat × RandSource) :=
  if max = 0 then .panic "crypto/rand: argument to Int is <= 0"
  else if bitLen (max - 1) = 0 then .ok (0, r)
  else
    let k := (bitLen (max - 1) + 7) / 8
    let b := if bitLen (max - 1) % 8 = 0 then 8 else bitLen (max - 1) % 8
    match randIntLoop max k b r.err (r.bytes.length + 1) r.bytes with
    | .error e => .err e
    | .ok (v, rest) => .ok (v, { r with bytes := rest })

/-- What the Go runtime and its version fix for `GenerateUniqueString`. -/
structure Runtime where
  /-- The limit of the runtime on the size of one allocation (`maxAlloc`, `1 << 48` bytes on
  linux/amd64): `make([]byte, n)` panics for a larger `n`. -/
  maxAlloc : Nat
  /-- Whether a failure of `rand.Reader` ends the process (Go 1.24 and later) instead of being
  returned as an error (before Go 1.24). -/
  randFatal : Bool
  deriving DecidableEq, Repr

/-- The text of the panic of `make([]byte, n)` for an `n` above the limit. -/
def makesliceMsg : String := "runtime error: makeslice: len out of range"

/-- The text with which the runtime ends the process when `rand.Reader` fails. -/
def randFatalMsg : String := "fatal error: crypto/rand: failed to read random data"

/-- What becomes of a failure `e` of the random source at a place where the function wraps
the error under `text`: the process ends when the runtime makes such a failure fatal, and
the wrapped error is returned with the empty string otherwise. The end of the process is
recorded as a panic with the text of the runtime. -/
def randFailure (rt : Runtime) (text : String) (e : GoError) :
    GoResult (String × Option GoError) :=
  if rt.randFatal then .panic randFatalMsg else .ok ("", some (.wrapf text e))

/-- The `for` loop of `GenerateUniqueString` with `n` turns left; `acc` holds the bytes of
`result` that are set. Reading `letterBytes` past its end panics. -/
def fillResult (rt : Runtime) : Nat → RandSource → List Char → GoResult (String × Option GoError)
  | 0, _, acc => .ok (String.mk acc, none)
  | n + 1, r, acc =>
    match randInt r letterBytes.length with
    | .panic v => .panic v
    | .err e => randFailure rt "failed to generate random index" e
    | .ok (num, r1) =>
      match letterBytes.data[num]? with
      | none => .panic "runtime error: index out of range"
      | some ch => fillResult rt n r1 (acc ++ [ch])

/-- The function `GenerateUniqueString`: the two values it returns, or a panic. The first
`make([]byte, length)` panics when `length` is above the limit of the runtime; up to that
limit the memory is taken to suffice. -/
def GenerateUniqueString (rt : Runtime) (rand : RandSource) (length : Int) :
    GoResult (String × Option GoError) :=
  if length < 1 then .ok ("", some (.new "length must be at least 1"))
  else if (rt.maxAlloc : Int) < length then .panic makesliceMsg
  else
    match readFull rand length.toNat with
    | .error e => randFailure rt "failed to generate entropy" e
    | .ok _ => fillResult rt length.toNat (rand.skip length.toNat) []

/-- The bytes of a run that `rand.Int` accepts for the 62 letters: those whose six low bits
stand for a number below 62. -/
def acceptedBytes (bs : Bytes) : Bytes := bs.filter (fun x => decide (x % 64 < 62))

/-- The letter `rand.Int` and `letterBytes` make of an accepted byte. -/
def letterOf (x : Nat) : Char := letterBytes.data.getD (x % 64) '0'

/-! ## Scenarios -/

/-- Registrations made one after the other, each on a server instance of its own choosing;
the result is the process-wide service map after the last. -/
def registerAll (g : ServiceMap) : List (tlsRpcServer × String × Service) → ServiceMap
  | [] => g
  | (s, name, service) :: rest => registerAll (s.RegisterMethod g name service).2.2 rest

/-- The state a call ends in, whether it returns or exits. -/
def Exec.state {σ : Type} : Exec σ → σ
  | .returned s => s
  | .exited _ s => s

/-- The number of entries a `DefaultLogger` has written, on both of its loggers. -/
def DefaultLogger.written (dl : DefaultLogger) : Nat :=
  dl.infoLogger.out.length + dl.errorLogger.out.length

/-- A connection that has just been established. -/
def openConn (remoteAddr localAddr : String) : Conn :=
  { remoteAddr := remoteAddr, localAddr := localAddr, closed := false, closeCalls := 0 }

/-- A listener that has just been bound. -/
def openListener (addr : String) : Listener := { addr := addr, closed := false, closeCalls := 0 }

/-- A service whose one method panics. -/
def panicService : Service :=
  { typeName := "*main.Faulty", methods := [("Boom", fun _ => .panic "runtime error: boom")] }

/-- A service whose one method returns an error. -/
def failingService : Service :=
  { typeName := "*main.Failing"
    methods := [("Fail", fun _ => .ret [] (some (.new "no such record")))] }

/-- An environment for examples: one certificate file whose content stands for a valid
certificate, one readable file that holds no certificate, and a server at
`localhost:7000` whose certificate is the one of the first file. Any other file
is missing. -/
def exampleEnv : Env :=
  { readFile := fun path =>
      if path = "testdata/tls/server.crt" then .ok (strBytes "-----BEGIN CERTIFICATE-----")
      else if path = "testdata/tls/broken.crt" then .ok (strBytes "not a certificate")
      else .error (.new ("open " ++ path ++ ": no such file or directory"))
    parseCerts := fun data =>
      if data = strBytes "-----BEGIN CERTIFICATE-----" then [{ raw := [48, 130] }] else []
    dial := fun address pool =>
      if address = "localhost:7000" ∧ pool = [{ raw := [48, 130] }] then
        .ok (openConn "127.0.0.1:7000" "127.0.0.1:50000")
      else .error (.new "tls: failed to verify certificate: x509: certificate signed by unknown authority")
    loadKeyPair := fun _ _ => none
    listen := fun port => .ok (openListener ("[::]:" ++ port)) }

/-! # Theorems -/

/-! ## The leveled logger -/

theorem shouldLog_iff (dl : DefaultLogger) (level : LogLevel) :
    dl.shouldLog level = true ↔ dl.level ≤ level := by
  simp [DefaultLogger.shouldLog]

/-- A plain method called with several operands is the method called with their text. -/
theorem plain_operands (dl : DefaultLogger) (v : List String) :
    dl.Debug v = dl.Debug [" ".intercalate v] ∧ dl.Info v = dl.Info [" ".intercalate v] ∧
    dl.Warn v = dl.Warn [" ".intercalate v] ∧ dl.Error v = dl.Error [" ".intercalate v] ∧
    dl.Fatal v = dl.Fatal [" ".intercalate v] :=
  ⟨rfl, rfl, rfl, rfl, rfl⟩

theorem infix_of_append (a b c : String) : List.IsInfix b.data (a ++ b ++ c).data :=
  ⟨a.data, c.data, by simp [String.data_append]⟩

/-- The text of a call is at the head of the message `Output` writes for it. -/
theorem output_out (l : GoLogger) (s : String) :
    ∃ e : LogEntry, (l.Output s).out = l.out ++ [e] ∧ e.pfx = l.pfx ∧
      List.IsPrefix s.data e.msg.data ∧ (l.Output s).pfx = l.pfx := by
  unfold GoLogger.Output
  by_cases h : s.data.getLast? = some '\n'
  · exact ⟨⟨l.pfx, s⟩, by simp [h], rfl, List.prefix_refl _, rfl⟩
  · exact ⟨⟨l.pfx, s ++ "\n"⟩, by simp [h], rfl, by simp [String.data_append], rfl⟩

theorem println_out (l : GoLogger) (text : String) :
    ∃ e : LogEntry, (l.Println [text]).out = l.out ++ [e] ∧ e.pfx = l.pfx ∧
      List.IsPrefix text.data e.msg.data ∧ (l.Println [text]).pfx = l.pfx := by
  obtain ⟨e, h1, h2, h3, h4⟩ := output_out l (Sprintln [text])
  refine ⟨e, h1, h2, ?_, h4⟩
  have : (Sprintln [text]) = text ++ "\n" := rfl
  rw [this] at h3
  exact List.IsPrefix.trans (by simp [String.data_append]) h3

theorem println_setPrefix (l : GoLogger) (p q text : String) :
    ∃ e : LogEntry, e.pfx = p ∧ List.IsPrefix text.data e.msg.data ∧
      (((l.SetPrefix p).Println [text]).SetPrefix q).out = l.out ++ [e] := by
  obtain ⟨e, h1, h2, h3, _⟩ := println_out (l.SetPrefix p) text
  exact ⟨e, h2, h3, h1⟩

theorem printf_setPrefix (l : GoLogger) (p q text : String) :
    ∃ e : LogEntry, e.pfx = p ∧ List.IsPrefix text.data e.msg.data ∧
      (((l.SetPrefix p).Printf text).SetPrefix q).out = l.out ++ [e] := by
  obtain ⟨e, h1, h2, h3, _⟩ := output_out (l.SetPrefix p) text
  exact ⟨e, h2, h3, h1⟩

/-- What a method below `Fatal` does, by the logger it writes to. -/
theorem call_spec (dl : DefaultLogger) (m : LogMethod) (text : String)
    (hm : m ≠ .Fatal ∧ m ≠ .Fatalf) :
    (m.level < dl.level → dl.call ⟨m, text⟩ = .returned dl) ∧
    (dl.level ≤ m.level → ∃ dl1 e, dl.call ⟨m, text⟩ = .returned dl1 ∧
        e.pfx = "[TLS-RPC] " ++ m.level.String ++ ": " ∧ List.IsPrefix text.data e.msg.data ∧
        dl1.level = dl.level ∧
        ((m.level ≤ LogLevelInfo ∧ dl1.infoLogger.out = dl.infoLogger.out ++ [e] ∧
            dl1.errorLogger = dl.errorLogger) ∨
         (LogLevelWarn ≤ m.level ∧ dl1.errorLogger.out = dl.errorLogger.out ++ [e] ∧
            dl1.infoLogger = dl.infoLogger))) := by
  obtain ⟨hm1, hm2⟩ := hm
  cases m
  case Fatal => exact absurd rfl hm1
  case Fatalf => exact absurd rfl hm2
  case Debug =>
    refine ⟨fun h => ?_, fun h => ?_⟩
    · have hs : dl.shouldLog LogLevelDebug = false := by
        simpa [DefaultLogger.shouldLog, LogMethod.level] using h
      simp [DefaultLogger.call, DefaultLogger.Debug, hs]
    · have hs : dl.shouldLog LogLevelDebug = true := (shouldLog_iff _ _).2 h
      obtain ⟨e, h1, h2, h3⟩ :=
        println_setPrefix dl.infoLogger "[TLS-RPC] DEBUG: " "[TLS-RPC] " text
      refine ⟨dl.Debug [text], e, rfl, h1, h2, ?_, Or.inl ⟨by decide, ?_, ?_⟩⟩
      · simp [DefaultLogger.Debug, hs]
      · simpa [DefaultLogger.Debug, hs] using h3
      · simp [DefaultLogger.Debug, hs]
  case Debugf =>
    refine ⟨fun h => ?_, fun h => ?_⟩
    · have hs : dl.shouldLog LogLevelDebug = false := by
        simpa [DefaultLogger.shouldLog, LogMethod.level] using h
      simp [DefaultLogger.call, DefaultLogger.Debugf, hs]
    · have hs : dl.shouldLog LogLevelDebug = true := (shouldLog_iff _ _).2 h
      obtain ⟨e, h1, h2, h3⟩ :=
        printf_setPrefix dl.infoLogger "[TLS-RPC] DEBUG: " "[TLS-RPC] " text
      refine ⟨dl.Debugf text, e, rfl, h1, h2, ?_, Or.inl ⟨by decide, ?_, ?_⟩⟩
      · simp [DefaultLogger.Debugf, hs]
      · simpa [DefaultLogger.Debugf, hs] using h3
      · simp [DefaultLogger.Debugf, hs]
  case Info =>
    refine ⟨fun h => ?_, fun h => ?_⟩
    · have hs : dl.shouldLog LogLevelInfo = false := by
        simpa [DefaultLogger.shouldLog, LogMethod.level] using h
      simp [DefaultLogger.call, DefaultLogger.Info, hs]
    · have hs : dl.shouldLog LogLevelInfo = true := (shouldLog_iff _ _).2 h
      obtain ⟨e, h1, h2, h3⟩ :=
        println_setPrefix dl.infoLogger "[TLS-RPC] INFO: " "[TLS-RPC] " text
      refine ⟨dl.Info [text], e, rfl, h1, h2, ?_, Or.inl ⟨by decide, ?_, ?_⟩⟩
      · simp [DefaultLogger.Info, hs]
      · simpa [DefaultLogger.Info, hs] using h3
      · simp [DefaultLogger.Info, hs]
  case Infof =>
    refine ⟨fun h => ?_, fun h => ?_⟩
    · have hs : dl.shouldLog LogLevelInfo = false := by
        simpa [DefaultLogger.shouldLog, LogMethod.level] using h
      simp [DefaultLogger.call, DefaultLogger.Infof, hs]
    · have hs : dl.shouldLog LogLevelInfo = true := (shouldLog_iff _ _).2 h
      obtain ⟨e, h1, h2, h3⟩ :=
        printf_setPrefix dl.infoLogger "[TLS-RPC] INFO: " "[TLS-RPC] " text
      refine ⟨dl.Infof text, e, rfl, h1, h2, ?_, Or.inl ⟨by decide, ?_, ?_⟩⟩
      · simp [DefaultLogger.Infof, hs]
      · simpa [DefaultLogger.Infof, hs] using h3
      · simp [DefaultLogger.Infof, hs]
  case Warn =>
    refine ⟨fun h => ?_, fun h => ?_⟩
    · have hs : dl.shouldLog LogLevelWarn = false := by
        simpa [DefaultLogger.shouldLog, LogMethod.level] using h
      simp [DefaultLogger.call, DefaultLogger.Warn, hs]
    · have hs : dl.shouldLog LogLevelWarn = true := (shouldLog_iff _ _).2 h
      obtain ⟨e, h1, h2, h3⟩ :=
        println_setPrefix dl.errorLogger "[TLS-RPC] WARN: " "[TLS-RPC] " text
      refine ⟨dl.Warn [text], e, rfl, h1, h2, ?_, Or.inr ⟨by decide, ?_, ?_⟩⟩
      · simp [DefaultLogger.Warn, hs]
      · simpa [DefaultLogger.Warn, hs] using h3
      · simp [DefaultLogger.Warn, hs]
  case Warnf =>
    refine ⟨fun h => ?_, fun h => ?_⟩
    · have hs : dl.shouldLog LogLevelWarn = false := by
        simpa [DefaultLogger.shouldLog, LogMethod.level] using h
      simp [DefaultLogger.call, DefaultLogger.Warnf, hs]
    · have hs : dl.shouldLog LogLevelWarn = true := (shouldLog_iff _ _).2 h
      obtain ⟨e, h1, h2, h3⟩ :=
        printf_setPrefix dl.errorLogger "[TLS-RPC] WARN: " "[TLS-RPC] " text
      refine ⟨dl.Warnf text, e, rfl, h1, h2, ?_, Or.inr ⟨by decide, ?_, ?_⟩⟩
      · simp [DefaultLogger.Warnf, hs]
      · simpa [DefaultLogger.Warnf, hs] using h3
      · simp [DefaultLogger.Warnf, hs]
  case Error =>
    refine ⟨fun h => ?_, fun h => ?_⟩
    · have hs : dl.shouldLog LogLevelError = false := by
        simpa [DefaultLogger.shouldLog, LogMethod.level] using h
      simp [DefaultLogger.call, DefaultLogger.Error, hs]
    · have hs : dl.shouldLog LogLevelError = true := (shouldLog_iff _ _).2 h
      obtain ⟨e, h1, h2, h3⟩ :=
        println_setPrefix dl.errorLogger "[TLS-RPC] ERROR: " "[TLS-RPC] " text
      refine ⟨dl.Error [text], e, rfl, h1, h2, ?_, Or.inr ⟨by decide, ?_, ?_⟩⟩
      · simp [DefaultLogger.Error, hs]
      · simpa [DefaultLogger.Error, hs] using h3
      · simp [DefaultLogger.Error, hs]
  case Errorf =>
    refine ⟨fun h => ?_, fun h => ?_⟩
    · have hs : dl.shouldLog LogLevelError = false := by
        simpa [DefaultLogger.shouldLog, LogMethod.level] using h
      simp [DefaultLogger.call, DefaultLogger.Errorf, hs]
    · have hs : dl.shouldLog LogLevelError = true := (shouldLog_iff _ _).2 h
      obtain ⟨e, h1, h2, h3⟩ :=
        printf_setPrefix dl.errorLogger "[TLS-RPC] ERROR: " "[TLS-RPC] " text
      refine ⟨dl.Errorf text, e, rfl, h1, h2, ?_, Or.inr ⟨by decide, ?_, ?_⟩⟩
      · simp [DefaultLogger.Errorf, hs]
      · simpa [DefaultLogger.Errorf, hs] using h3
      · simp [DefaultLogger.Errorf, hs]

/-- C8. For every `DefaultLogger` (whatever its level `L`) and every method below `Fatal`, plain
or formatted, of level `M`: when `M < L` the call changes nothing, so nothing is written to
the info or the error logger; when `M >= L` exactly one entry is appended, to the info logger
for Debug and Info and to the error logger for Warn and Error, with the prefix naming the
level and the text of the call; hence an entry is written if and only if `M >= L`. At level
Info, `Debug` writes nothing and `Info` writes a line that contains "INFO". -/
theorem C8_level_filtering (dl : DefaultLogger) (m : LogMethod) (text : String)
    (hm : m ≠ .Fatal ∧ m ≠ .Fatalf) :
    (m.level < dl.level → dl.call ⟨m, text⟩ = .returned dl) ∧
    (dl.level ≤ m.level → ∃ dl1 e, dl.call ⟨m, text⟩ = .returned dl1 ∧
        e.pfx = "[TLS-RPC] " ++ m.level.String ++ ": " ∧ List.IsPrefix text.data e.msg.data ∧
        dl1.level = dl.level ∧
        ((m.level ≤ LogLevelInfo ∧ dl1.infoLogger.out = dl.infoLogger.out ++ [e] ∧
            dl1.errorLogger = dl.errorLogger) ∨
         (LogLevelWarn ≤ m.level ∧ dl1.errorLogger.out = dl.errorLogger.out ++ [e] ∧
            dl1.infoLogger = dl.infoLogger))) ∧
    ((dl.call ⟨m, text⟩).state.written = dl.written + 1 ↔ dl.level ≤ m.level) ∧
    (dl.level = LogLevelInfo →
      dl.call ⟨.Debug, text⟩ = .returned dl ∧
      ∃ e, (dl.call ⟨.Info, text⟩).state.infoLogger.out = dl.infoLogger.out ++ [e] ∧
        (dl.call ⟨.Info, text⟩).state.errorLogger.out = dl.errorLogger.out ∧
        ∀ stamp, List.IsInfix "INFO".data (e.render stamp).data) := by
  obtain ⟨hlow, hhigh⟩ := call_spec dl m text hm
  refine ⟨hlow, hhigh, ⟨fun hw => ?_, fun hle => ?_⟩, fun hinfo => ?_⟩
  · by_contra hlt
    rw [hlow (lt_of_not_ge hlt)] at hw
    simp [Exec.state] at hw
  · obtain ⟨dl1, e, hc, _, _, _, hcase⟩ := hhigh hle
    rw [hc]
    rcases hcase with ⟨_, h1, h2⟩ | ⟨_, h1, h2⟩
    · simp [Exec.state, DefaultLogger.written, h1, h2]; omega
    · simp [Exec.state, DefaultLogger.written, h1, h2]; omega
  · refine ⟨(call_spec dl .Debug text (by decide)).1 (by rw [hinfo]; decide), ?_⟩
    obtain ⟨dl1, e, hc, hp, _, _, hcase⟩ :=
      (call_spec dl .Info text (by decide)).2 (by rw [hinfo]; decide)
    rcases hcase with ⟨_, h1, h2⟩ | ⟨hw, _, _⟩
    · refine ⟨e, by rw [hc]; exact h1, by rw [hc]; simp [Exec.state, h2], fun stamp => ?_⟩
      have hp2 : e.pfx = "[TLS-RPC] " ++ "INFO" ++ ": " := hp
      unfold LogEntry.render
      rw [hp2]
      exact ⟨"[TLS-RPC] ".data, (": " ++ stamp ++ e.msg).data, by simp [String.data_append]⟩
    · exact absurd hw (by decide)

theorem C8_level_filtering_witness :
    NewDefaultLogger.call ⟨.Debug, "this is debug"⟩ = .returned NewDefaultLogger ∧
    ∃ e, (NewDefaultLogger.call ⟨.Info, "this is info"⟩).state.infoLogger.out = [e] ∧
      List.IsInfix "INFO".data (e.render "2009/01/23 01:23:23 ").data := by
  have h1 := (C8_level_filtering NewDefaultLogger .Debug "this is debug" (by decide)).1 (by decide)
  obtain ⟨_, e, h2, _, h3⟩ :=
    (C8_level_filtering NewDefaultLogger .Info "this is info" (by decide)).2.2.2 rfl
  exact ⟨h1, e, h2, h3 _⟩

/-- C9 (counterexample). `SetLevel` takes any `LogLevel`, an `int`; at level 5, above
`LogLevelFatal`, both `Fatal` and `Fatalf` write nothing and return to their caller. -/
theorem C9_counterexample :
    (NewDefaultLogger.SetLevel 5).Fatal ["fatal error"] =
      .returned (NewDefaultLogger.SetLevel 5) ∧
    (NewDefaultLogger.SetLevel 5).Fatalf "fatal error test" =
      .returned (NewDefaultLogger.SetLevel 5) := by
  decide

/-- C9 (amended). For every `DefaultLogger` and every level set with `SetLevel`: when the level
is at most `LogLevelFatal`, `Fatal` and `Fatalf` append one entry with the FATAL prefix and
the text of the call to the error logger, leave the info logger alone, and end the process
with exit code 1 instead of returning; when the level is above `LogLevelFatal` they write
nothing and return. -/
theorem C9_fatal_exits (dl : DefaultLogger) (level : LogLevel) (text : String) :
    (level ≤ LogLevelFatal →
      (∃ dl1 e, (dl.SetLevel level).Fatal [text] = .exited 1 dl1 ∧
        dl1.errorLogger.out = dl.errorLogger.out ++ [e] ∧ dl1.infoLogger = dl.infoLogger ∧
        e.pfx = "[TLS-RPC] FATAL: " ∧ List.IsPrefix text.data e.msg.data) ∧
      (∃ dl1 e, (dl.SetLevel level).Fatalf text = .exited 1 dl1 ∧
        dl1.errorLogger.out = dl.errorLogger.out ++ [e] ∧ dl1.infoLogger = dl.infoLogger ∧
        e.pfx = "[TLS-RPC] FATAL: " ∧ List.IsPrefix text.data e.msg.data)) ∧
    (LogLevelFatal < level →
      (dl.SetLevel level).Fatal [text] = .returned (dl.SetLevel level) ∧
      (dl.SetLevel level).Fatalf text = .returned (dl.SetLevel level)) := by
  refine ⟨fun h => ?_, fun h => ?_⟩
  · have hs : (dl.SetLevel level).shouldLog LogLevelFatal = true := (shouldLog_iff _ _).2 h
    constructor
    · obtain ⟨e, h1, h2, h3, _⟩ :=
        println_out (dl.errorLogger.SetPrefix "[TLS-RPC] FATAL: ") text
      exact ⟨{ (dl.SetLevel level) with
          errorLogger := (dl.errorLogger.SetPrefix "[TLS-RPC] FATAL: ").Println [text] }, e,
        by simp only [DefaultLogger.Fatal, hs, if_true]; rfl, h1, rfl, h2, h3⟩
    · obtain ⟨e, h1, h2, h3, _⟩ :=
        output_out (dl.errorLogger.SetPrefix "[TLS-RPC] FATAL: ") text
      exact ⟨{ (dl.SetLevel level) with
          errorLogger := (dl.errorLogger.SetPrefix "[TLS-RPC] FATAL: ").Printf text }, e,
        by simp only [DefaultLogger.Fatalf, hs, if_true]; rfl, h1, rfl, h2, h3⟩
  · have hs : (dl.SetLevel level).shouldLog LogLevelFatal = false := by
      simpa [DefaultLogger.shouldLog, DefaultLogger.SetLevel] using h
    simp [DefaultLogger.Fatal, DefaultLogger.Fatalf, hs]

theorem C9_fatal_exits_witness :
    ∃ dl1 e, (NewDefaultLogger.SetLevel LogLevelDebug).Fatalf "fatal error test" = .exited 1 dl1 ∧
      dl1.errorLogger.out = NewDefaultLogger.errorLogger.out ++ [e] ∧
      dl1.infoLogger = NewDefaultLogger.infoLogger ∧
      e.pfx = "[TLS-RPC] FATAL: " ∧ List.IsPrefix "fatal error test".data e.msg.data :=
  ((C9_fatal_exits NewDefaultLogger LogLevelDebug "fatal error test").1 (by decide)).2

/-! ## The process-wide service map -/

theorem RegisterMethod_map (s : tlsRpcServer) (g : ServiceMap) (name : String) (service : Service) :
    (s.RegisterMethod g name service).2.2 = (RegisterName g name service).2 ∧
    ((s.RegisterMethod g name service).1 = none ↔ (RegisterName g name service).1 = none) := by
  unfold tlsRpcServer.RegisterMethod
  rcases h : RegisterName g name service with ⟨_ | e, g1⟩ <;> simp

theorem RegisterName_ok (g : ServiceMap) (name : String) (service : Service)
    (h : (RegisterName g name service).1 = none) :
    (RegisterName g name service).2.lookup name = some service ∧ g.lookup name = none := by
  unfold RegisterName at h ⊢
  by_cases h1 : name = ""
  · simp [h1] at h
  · by_cases h2 : service.methods.isEmpty = true
    · simp [h1, h2] at h
    · by_cases h3 : (g.lookup name).isSome = true
      · simp [h1, h2, h3] at h
      · have h4 : g.lookup name = none := by
          cases hq : g.lookup name with
          | none => rfl
          | some v => simp [hq] at h3
        simp [h1, h2, h4, List.lookup_append]

theorem RegisterName_keeps (g : ServiceMap) (name n : String) (service v : Service)
    (h : g.lookup n = some v) : (RegisterName g name service).2.lookup n = some v := by
  unfold RegisterName
  split_ifs <;> simp [h, List.lookup_append]

theorem RegisterName_dup (g : ServiceMap) (name : String) (service v : Service)
    (h : g.lookup name = some v) :
    ∃ err, RegisterName g name service = (some err, g) := by
  unfold RegisterName
  split_ifs with h1 h2 h3
  · exact ⟨_, rfl⟩
  · exact ⟨_, rfl⟩
  · exact ⟨_, rfl⟩
  · simp [h] at h3

theorem registerAll_keeps (later : List (tlsRpcServer × String × Service)) (g : ServiceMap)
    (n : String) (v : Service) (h : g.lookup n = some v) :
    (registerAll g later).lookup n = some v := by
  induction later generalizing g with
  | nil => exact h
  | cons x rest ih =>
    obtain ⟨s, name, service⟩ := x
    unfold registerAll
    apply ih
    rw [(RegisterMethod_map s g name service).1]
    exact RegisterName_keeps g name n service v h

/-- C6. Once `RegisterMethod(name, service)` has succeeded, on whatever server instance, then
after any further registrations in the process every `RegisterMethod` with the same name, on
any server instance and with any receiver, returns a non-nil error that wraps the error of
`net/rpc` and whose text starts with "failed to register RPC service <name>"; the service
map is left as it was, with the first registration still under the name. -/
theorem C6_duplicate_rejected (s : tlsRpcServer) (g : ServiceMap) (name : String)
    (service : Service) (later : List (tlsRpcServer × String × Service))
    (s2 : tlsRpcServer) (service2 : Service)
    (h : (s.RegisterMethod g name service).1 = none) :
    ∃ err : GoError,
      (s2.RegisterMethod (registerAll (s.RegisterMethod g name service).2.2 later)
          name service2).1
        = some (.wrapf ("failed to register RPC service " ++ name) err) ∧
      List.IsPrefix ("failed to register RPC service " ++ name).data
        (GoError.wrapf ("failed to register RPC service " ++ name) err).Error.data ∧
      (s2.RegisterMethod (registerAll (s.RegisterMethod g name service).2.2 later)
          name service2).2.2
        = registerAll (s.RegisterMethod g name service).2.2 later ∧
      (registerAll (s.RegisterMethod g name service).2.2 later).lookup name = some service := by
  have h1 := (RegisterName_ok g name service ((RegisterMethod_map s g name service).2.1 h)).1
  rw [← (RegisterMethod_map s g name service).1] at h1
  have h2 := registerAll_keeps later _ name service h1
  obtain ⟨err, h3⟩ := RegisterName_dup _ name service2 service h2
  generalize registerAll (s.RegisterMethod g name service).2.2 later = G at h2 h3 ⊢
  refine ⟨err, ?_, ?_, ?_, h2⟩
  · unfold tlsRpcServer.RegisterMethod
    rw [h3]
  · simp [GoError.Error, String.data_append]
  · unfold tlsRpcServer.RegisterMethod
    rw [h3]

theorem C6_duplicate_rejected_witness :
    ∃ err : GoError,
      (tlsRpcServer.RegisterMethod ⟨none, []⟩
          (registerAll
            (tlsRpcServer.RegisterMethod ⟨some (openListener "[::]:7000"), []⟩ []
              "TestService" TestService).2.2
            [(⟨none, []⟩, "Other", failingService)])
          "TestService" panicService).1
        = some (.wrapf ("failed to register RPC service " ++ "TestService") err) := by
  obtain ⟨err, h, _⟩ := C6_duplicate_rejected ⟨some (openListener "[::]:7000"), []⟩ []
    "TestService" TestService [(⟨none, []⟩, "Other", failingService)] ⟨none, []⟩ panicService
    (by simp [tlsRpcServer.RegisterMethod, RegisterName, TestService])
  exact ⟨err, h⟩

/-! ## The accept loop and the listener -/

/-- The accept loop ends on an `Accept` error exactly when the test of `Serve` holds of it;
on any other error it logs the error and goes on with the next `Accept`. -/
theorem acceptLoop_err (s : tlsRpcServer) (spawned : List Conn) (e : GoError)
    (rest : List AcceptResult) :
    (isAcceptOpError e = true →
      s.acceptLoop spawned (.err e :: rest) =
        { status := .returned
          server := { s with logger := s.logger.Info "Server stopped accepting connections" }
          spawned := spawned, pending := rest }) ∧
    (isAcceptOpError e = false →
      s.acceptLoop spawned (.err e :: rest) =
        tlsRpcServer.acceptLoop
          { s with logger := s.logger.Errorf ("Failed to accept connection: " ++ e.Error) }
          spawned rest) := by
  constructor <;> intro h <;> simp [tlsRpcServer.acceptLoop, h]

/-- When `Accept` fails because the listener was closed, `Serve` returns. -/
theorem Serve_returns_on_closed_listener (l : Listener) (lg : Logger) (rest : List AcceptResult) :
    isListenerClosed listenerClosedError = true ∧
    (tlsRpcServer.Serve ⟨some l, lg⟩ (.err listenerClosedError :: rest)).status = .returned := by
  constructor
  · decide
  · simp [tlsRpcServer.Serve, tlsRpcServer.acceptLoop, listenerClosedError, isAcceptOpError]

/-- C4. `Accept` fails with "too many open files" while the listener is open: the error is not
the listener-closed condition, yet `Serve` leaves its loop and returns, logging that the
server stopped accepting; the error is not logged as a failure and the connection that the
next `Accept` would have returned is never accepted. -/
theorem C4_transient_error_ends_serve (l : Listener) (lg : Logger) (c : Conn) :
    isListenerClosed tooManyOpenFiles = false ∧
    tlsRpcServer.Serve ⟨some l, lg⟩ [.err tooManyOpenFiles, .conn c] =
      { status := .returned
        server :=
          ⟨some l, lg ++ [⟨.Infof, "TLS RPC server started, listening on " ++ l.addr⟩,
            ⟨.Debugf, "Server configuration: TLS enabled, RPC protocol"⟩,
            ⟨.Info, "Server stopped accepting connections"⟩]⟩
        spawned := []
        pending := [.conn c] } := by
  constructor
  · decide
  · simp [tlsRpcServer.Serve, tlsRpcServer.acceptLoop, tooManyOpenFiles, isAcceptOpError,
      Logger.Infof, Logger.Debugf, Logger.Info]

/-- C5. On a server with a listener, a second `CloseServer` is not without effect: it calls
`Close` on the listener again and logs "Closing TLS RPC server" again, so the state after
two calls differs from the state after one. With the default logger of a new server both
calls write a line. -/
theorem C5_second_close_has_effect (l : Listener) (lg : Logger) :
    (tlsRpcServer.CloseServer ⟨some l, lg⟩).CloseServer ≠ tlsRpcServer.CloseServer ⟨some l, lg⟩ ∧
    (tlsRpcServer.CloseServer ⟨some l, lg⟩).CloseServer =
      ⟨some { l with closed := true, closeCalls := l.closeCalls + 2 },
        lg ++ [⟨.Info, "Closing TLS RPC server"⟩, ⟨.Info, "Closing TLS RPC server"⟩]⟩ ∧
    tlsRpcServer.CloseServer ⟨some l, lg⟩ =
      ⟨some { l with closed := true, closeCalls := l.closeCalls + 1 },
        lg ++ [⟨.Info, "Closing TLS RPC server"⟩]⟩ ∧
    ((NewDefaultLogger.run
        (tlsRpcServer.CloseServer ⟨some l, []⟩).CloseServer.logger).state.infoLogger.out.length = 2 ∧
      (NewDefaultLogger.run
        (tlsRpcServer.CloseServer ⟨some l, []⟩).logger).state.infoLogger.out.length = 1) := by
  refine ⟨?_, ?_, ?_, ?_, ?_⟩
  · intro h
    have := congrArg (fun s => s.logger.length) h
    simp [tlsRpcServer.CloseServer, Logger.Info] at this
  · simp [tlsRpcServer.CloseServer, Logger.Info, Listener.Close]
  · simp [tlsRpcServer.CloseServer, Logger.Info, Listener.Close]
  · have h : (tlsRpcServer.CloseServer ⟨some l, []⟩).CloseServer.logger =
        [⟨.Info, "Closing TLS RPC server"⟩, ⟨.Info, "Closing TLS RPC server"⟩] := rfl
    rw [h]
    decide
  · have h : (tlsRpcServer.CloseServer ⟨some l, []⟩).logger =
        [⟨.Info, "Closing TLS RPC server"⟩] := rfl
    rw [h]
    decide

/-! ## The trust pool -/

/-- An unreadable certificate file gives no pool and an error that wraps the read error. -/
theorem loadCertPool_unreadable (env : Env) (certFile : String) (err : GoError)
    (h : env.readFile certFile = .error err) :
    loadCertPool env certFile = .error (.wrapf ("failed to read cert " ++ certFile) err) := by
  simp [loadCertPool, h]

/-- A certificate file with at least one certificate gives a pool that is not empty. -/
theorem loadCertPool_loaded (env : Env) (certFile : String) (data : Bytes)
    (h : env.readFile certFile = .ok data) (hc : env.parseCerts data ≠ []) :
    ∃ pool, loadCertPool env certFile = .ok pool ∧ pool ≠ [] := by
  refine ⟨env.parseCerts data, ?_, hc⟩
  simp [loadCertPool, h, AppendCertsFromPEM, NewCertPool]

theorem connect_ne_load (name : String) :
    "failed to connect to server " ++ name ≠ "failed to load cert pool" := by
  intro h
  have h2 := congrArg (fun s : String => s.data.take 11) h
  simp [String.data_append, List.take_append_eq_append_take] at h2

/-- C7. For a certificate file that can be read and from which no certificate can be parsed,
`loadCertPool` returns a nil error with the empty pool of `x509.NewCertPool()`, although
`AppendCertsFromPEM` reported that nothing was added; its caller `NewITlsRpcClient` then
does not take its "failed to load cert pool" exit and goes on to dial with the empty pool. -/
theorem C7_malformed_pem_not_surfaced (env : Env) (certFile address name : String)
    (data : Bytes) (hread : env.readFile certFile = .ok data)
    (hbad : env.parseCerts data = []) :
    loadCertPool env certFile = .ok NewCertPool ∧
    (AppendCertsFromPEM env NewCertPool data).2 = false ∧
    (∀ err, (NewITlsRpcClient env certFile address name).1 ≠
      .error (.wrapf "failed to load cert pool" err)) ∧
    (NewITlsRpcClient env certFile address name).2.head? =
      some ⟨.Infof, "Connecting to TLS RPC server at " ++ address ++ " for client " ++ name⟩ := by
  have h1 : loadCertPool env certFile = .ok NewCertPool := by
    simp [loadCertPool, hread, AppendCertsFromPEM, hbad, NewCertPool]
  refine ⟨h1, by simp [AppendCertsFromPEM, hbad], ?_, ?_⟩
  · intro err
    unfold NewITlsRpcClient
    rw [h1]
    dsimp only
    split
    · simp only [ne_eq, Except.error.injEq, GoError.wrapf.injEq, not_and]
      exact fun h => absurd h (connect_ne_load name)
    · simp
  · unfold NewITlsRpcClient
    rw [h1]
    dsimp only
    split <;> simp [Logger.Infof, Logger.Debugf, Logger.Errorf]

theorem C7_malformed_pem_not_surfaced_witness :
    loadCertPool exampleEnv "testdata/tls/broken.crt" = .ok NewCertPool :=
  (C7_malformed_pem_not_surfaced exampleEnv "testdata/tls/broken.crt" "localhost:7000"
    "test-client" (strBytes "not a certificate") (by decide) (by decide)).1

/-! ## Serving a connection -/

/-- When `rpc.ServeConn` returns or panics on the goroutine of `handleConnection`, the function
returns with the connection closed; a panic is logged through `Errorf`. After a panic
`Close` has been called once on the connection, by the deferred function; after a normal
return twice, by the codec of `rpc.ServeConn` and then by the deferred function. -/
theorem handleConnection_returns (s : tlsRpcServer) (conn : Conn) (v : String) :
    (∃ s1 conn1, s.handleConnection conn .returned = .returned (s1, conn1) ∧
      conn1.closed = true ∧ conn1.closeCalls = conn.closeCalls + 2) ∧
    (∃ s1, s.handleConnection conn (.panicked v) = .returned (s1, conn.Close) ∧
      conn.Close.closed = true ∧ conn.Close.closeCalls = conn.closeCalls + 1 ∧
      (⟨.Errorf, "RPC handler panic for client " ++ conn.remoteAddr ++ ": " ++ v⟩ : LogCall)
        ∈ s1.logger) := by
  constructor
  · exact ⟨_, _, rfl, rfl, rfl⟩
  · exact ⟨_, rfl, rfl, rfl, by simp [Logger.Infof, Logger.Debugf, Logger.Errorf]⟩

/-- C3. A service method that panics does so on the goroutine `net/rpc` started for the call,
not on the one running `handleConnection`: served a request for such a method,
`handleConnection` does not return, the process ends with the panic, nothing is logged
through `Errorf` and the connection is not closed. -/
theorem C3_handler_panic_not_intercepted (s : tlsRpcServer) (conn : Conn) :
    (ServeConn [("Faulty", panicService)] [⟨"Faulty.Boom", []⟩]).2 =
      .callPanicked "runtime error: boom" ∧
    s.handleConnection conn (ServeConn [("Faulty", panicService)] [⟨"Faulty.Boom", []⟩]).2 =
      .crashed "runtime error: boom"
        (⟨s.listener, s.logger ++
          [⟨.Infof, "Serving RPC connection for client " ++ conn.remoteAddr⟩,
           ⟨.Debugf, "Starting RPC handler for client " ++ conn.remoteAddr⟩]⟩, conn) := by
  have h : (ServeConn [("Faulty", panicService)] [⟨"Faulty.Boom", []⟩]).2 =
      .callPanicked "runtime error: boom" := by decide
  refine ⟨h, ?_⟩
  rw [h]
  simp [tlsRpcServer.handleConnection, Logger.Infof, Logger.Debugf]

/-! ## Calls of a client -/

/-- C1. Whatever the method and the arguments, and whether the call gave a reply or an error,
the connection of the client is closed when `ConnectToRpcServerTls` returns (the deferred
`client.Close()` closed it), and a second call on the same client fails on the closed
connection. In the test's setting the first call of `TestService.Add` gives `{"Sum":8}` and
the second an error; a call of an unregistered method gives a remote error and leaves the
connection closed as well. -/
theorem C1_connection_closed_after_call (c : tlsRpcClient) (g : ServiceMap) (m1 m2 : String)
    (a1 a2 : Bytes) :
    (c.ConnectToRpcServerTls g m1 a1).2.conn.closed = true ∧
    (c.ConnectToRpcServerTls g m1 a1).2.conn.closeCalls = c.conn.closeCalls + 1 ∧
    ((c.ConnectToRpcServerTls g m1 a1).2.ConnectToRpcServerTls g m2 a2).1 =
      .error (.wrapf ("failed to call RPC method " ++ m2) .errClosed) ∧
    (tlsRpcClient.ConnectToRpcServerTls ⟨openConn "127.0.0.1:7000" "127.0.0.1:50000", []⟩
        [("TestService", TestService)] "TestService.Add" (strBytes "\x7b\"A\":5,\"B\":3\x7d")).1 =
      .ok (strBytes "\x7b\"Sum\":8\x7d") ∧
    (tlsRpcClient.ConnectToRpcServerTls ⟨openConn "127.0.0.1:7000" "127.0.0.1:50000", []⟩
        [("TestService", TestService)] "TestService.Sub" []).1 =
      .error (.wrapf "failed to call RPC method TestService.Sub"
        (.serverError "rpc: can't find method TestService.Sub")) := by
  have hc : (c.ConnectToRpcServerTls g m1 a1).2.conn = c.conn.Close := by
    unfold tlsRpcClient.ConnectToRpcServerTls
    cases rpcCall c.conn g m1 a1 <;> rfl
  refine ⟨by rw [hc]; rfl, by rw [hc]; rfl, ?_, by decide, by decide⟩
  generalize (c.ConnectToRpcServerTls g m1 a1).2 = c1 at hc
  have hclosed : c1.conn.closed = true := by rw [hc]; rfl
  simp [tlsRpcClient.ConnectToRpcServerTls, rpcCall, hclosed]

/-! ## Decimal text and the JSON of the test -/

theorem formatNatAux_acc (fuel : Nat) : ∀ (n : Nat) (acc : Bytes),
    formatNatAux fuel n acc = formatNatAux fuel n [] ++ acc := by
  induction fuel with
  | zero => intro n acc; simp [formatNatAux]
  | succ k ih =>
    intro n acc
    unfold formatNatAux
    by_cases h : n < 10
    · simp [h]
    · simp only [h, if_false]
      rw [ih (n / 10) ((48 + n % 10) :: acc), ih (n / 10) [48 + n % 10]]
      simp

theorem formatNatAux_fuel : ∀ (n f1 f2 : Nat), n < f1 → n < f2 →
    formatNatAux f1 n [] = formatNatAux f2 n [] := by
  intro n
  induction n using Nat.strong_induction_on with
  | _ n ih =>
    intro f1 f2 h1 h2
    obtain ⟨a, rfl⟩ : ∃ a, f1 = a + 1 := ⟨f1 - 1, by omega⟩
    obtain ⟨b, rfl⟩ : ∃ b, f2 = b + 1 := ⟨f2 - 1, by omega⟩
    unfold formatNatAux
    by_cases h : n < 10
    · simp [h]
    · simp only [h, if_false]
      rw [formatNatAux_acc a, formatNatAux_acc b]
      rw [ih (n / 10) (by omega) a b (by omega) (by omega)]

theorem formatNat_lt (n : Nat) (h : n < 10) : formatNat n = [48 + n] := by
  simp [formatNat, formatNatAux, h]

theorem formatNat_ge (n : Nat) (h : 10 ≤ n) :
    formatNat n = formatNat (n / 10) ++ [48 + n % 10] := by
  have h1 : ¬ n < 10 := by omega
  unfold formatNat
  conv_lhs => unfold formatNatAux
  simp only [h1, if_false]
  rw [formatNatAux_acc, formatNatAux_fuel (n / 10) n (n / 10 + 1) (by omega) (by omega)]

theorem formatNat_digits (n : Nat) : ∀ b ∈ formatNat n, isDigitByte b = true := by
  induction n using Nat.strong_induction_on with
  | _ n ih =>
    by_cases h : n < 10
    · rw [formatNat_lt n h]
      intro b hb
      simp at hb
      subst hb
      simp [isDigitByte]; omega
    · rw [formatNat_ge n (by omega)]
      intro b hb
      rcases List.mem_append.1 hb with hb | hb
      · exact ih (n / 10) (by omega) b hb
      · simp at hb
        subst hb
        simp [isDigitByte]; omega

theorem digitsValue_append (l : Bytes) (d : Nat) :
    digitsValue (l ++ [d]) = 10 * digitsValue l + (d - 48) := by
  simp [digitsValue]

theorem formatNat_value (n : Nat) : digitsValue (formatNat n) = n := by
  induction n using Nat.strong_induction_on with
  | _ n ih =>
    by_cases h : n < 10
    · rw [formatNat_lt n h]; simp [digitsValue]
    · rw [formatNat_ge n (by omega), digitsValue_append, ih (n / 10) (by omega)]
      omega

theorem formatNat_ne_nil (n : Nat) : formatNat n ≠ [] := by
  by_cases h : n < 10
  · rw [formatNat_lt n h]; simp
  · rw [formatNat_ge n (by omega)]; simp

/-- The decimal text of a number has no superfluous leading zero. -/
theorem formatNat_head (n : Nat) (h : 0 < n) : (formatNat n).head? ≠ some 48 := by
  induction n using Nat.strong_induction_on with
  | _ n ih =>
    by_cases hn : n < 10
    · rw [formatNat_lt n hn]; simp; omega
    · rw [formatNat_ge n (by omega), List.head?_append_of_ne_nil _ (formatNat_ne_nil _)]
      exact ih (n / 10) (by omega) (by omega)

theorem formatNat_head_digit (n : Nat) : ∃ b, (formatNat n).head? = some b ∧ isDigitByte b = true := by
  cases hl : formatNat n with
  | nil => exact absurd hl (formatNat_ne_nil n)
  | cons b t => exact ⟨b, rfl, formatNat_digits n b (by rw [hl]; simp)⟩

theorem takeWhile_stop {p : Nat → Bool} (rest : Bytes)
    (h : ∀ b, rest.head? = some b → p b = false) :
    rest.takeWhile p = [] ∧ rest.dropWhile p = rest := by
  cases rest with
  | nil => simp
  | cons b t =>
    have hb : p b = false := h b rfl
    simp [List.takeWhile_cons, List.dropWhile_cons, hb]

theorem digits_then_rest (n : Nat) (rest : Bytes)
    (h : ∀ b, rest.head? = some b → isDigitByte b = false) :
    (formatNat n ++ rest).takeWhile isDigitByte = formatNat n ∧
    (formatNat n ++ rest).dropWhile isDigitByte = rest := by
  obtain ⟨h1, h2⟩ := takeWhile_stop rest h
  rw [List.takeWhile_append_of_pos (formatNat_digits n),
    List.dropWhile_append_of_pos (formatNat_digits n), h1, h2]
  simp

theorem formatNat_no_leading_zero (n : Nat) :
    ((formatNat n).head? == some 48 && decide (1 < (formatNat n).length)) = false := by
  by_cases h : n = 0
  · subst h
    decide
  · have := formatNat_head n (by omega)
    simp [this]

/-- An integer literal written by `formatInt` is read back by `parseNumber`, which stops at the
first byte that is not a digit. -/
theorem parseNumber_formatInt (v : Int) (hv : isInt64 v) (rest : Bytes)
    (h : ∀ b, rest.head? = some b → isDigitByte b = false) :
    parseNumber (formatInt v ++ rest) = some (v, rest) := by
  obtain ⟨ht, hd⟩ := digits_then_rest v.natAbs rest h
  have hz := formatNat_no_leading_zero v.natAbs
  have hne : (formatNat v.natAbs).isEmpty = false := by
    cases hl : formatNat v.natAbs with
    | nil => exact absurd hl (formatNat_ne_nil _)
    | cons b t => rfl
  have hval := formatNat_value v.natAbs
  by_cases hneg : v < 0
  · have hf : formatInt v ++ rest = 45 :: (formatNat v.natAbs ++ rest) := by
      simp [formatInt, hneg]
    have hv2 : -((v.natAbs : Nat) : Int) = v := by omega
    rw [hf]
    simp only [parseNumber, List.head?_cons, beq_self_eq_true, if_true, List.tail_cons, ht, hd,
      hne, hz, hval, hv2, Bool.false_eq_true, if_false, decide_eq_true hv]
  · have hf : formatInt v ++ rest = formatNat v.natAbs ++ rest := by
      simp [formatInt, hneg]
    obtain ⟨b, hb1, hb2⟩ := formatNat_head_digit v.natAbs
    have hb3 : b ≠ 45 := by
      intro h45
      subst h45
      simp [isDigitByte] at hb2
    have hhead : ((formatNat v.natAbs ++ rest).head? == some 45) = false := by
      rw [List.head?_append_of_ne_nil _ (formatNat_ne_nil _), hb1]
      simpa using hb3
    have hv2 : ((v.natAbs : Nat) : Int) = v := by omega
    rw [hf]
    simp only [parseNumber, hhead, ht, hd, hne, hz, hval, hv2, Bool.false_eq_true, if_false,
      decide_eq_true hv, if_true]

theorem key_then_rest (key rest : Bytes) (hkey : ∀ b ∈ key, (b != 34) = true) :
    (key ++ 34 :: rest).takeWhile (fun b => b != 34) = key ∧
    (key ++ 34 :: rest).dropWhile (fun b => b != 34) = 34 :: rest := by
  rw [List.takeWhile_append_of_pos hkey, List.dropWhile_append_of_pos hkey]
  simp [List.takeWhile_cons, List.dropWhile_cons]

theorem parseMembers_last (fuel : Nat) (key : Bytes) (v : Int) (hv : isInt64 v)
    (hkey : ∀ b ∈ key, (b != 34) = true) :
    parseMembers (fuel + 1) (34 :: (key ++ 34 :: 58 :: (formatInt v ++ [125]))) =
      some [(key, v)] := by
  obtain ⟨h1, h2⟩ := key_then_rest key (58 :: (formatInt v ++ [125])) hkey
  have h3 := parseNumber_formatInt v hv [125] (by intro b hb; simp at hb; subst hb; decide)
  simp only [parseMembers, List.head?_cons, beq_self_eq_true, if_true, List.tail_cons, h1, h2,
    Bool.and_self, h3]

theorem parseMembers_more (fuel : Nat) (key rest : Bytes) (v : Int) (hv : isInt64 v)
    (hkey : ∀ b ∈ key, (b != 34) = true) :
    parseMembers (fuel + 1) (34 :: (key ++ 34 :: 58 :: (formatInt v ++ 44 :: rest))) =
      (parseMembers fuel rest).map (fun ms => (key, v) :: ms) := by
  obtain ⟨h1, h2⟩ := key_then_rest key (58 :: (formatInt v ++ 44 :: rest)) hkey
  have h3 := parseNumber_formatInt v hv (44 :: rest)
    (by intro b hb; simp at hb; subst hb; decide)
  have h4 : ((44 :: rest : Bytes) == [125]) = false := by
    simp
  simp only [parseMembers, List.head?_cons, beq_self_eq_true, if_true, List.tail_cons, h1, h2,
    Bool.and_self, h3, h4, Bool.false_eq_true, if_false]

/-- Reading back the JSON of an `Args` gives the `Args`. -/
theorem jsonUnmarshalArgs_marshal (a : Args) (hA : isInt64 a.A) (hB : isInt64 a.B) :
    jsonUnmarshalArgs (jsonMarshalArgs a) = (a, none) := by
  have e1 : strBytes "\x7b\"A\":" = [123, 34, 65, 34, 58] := by decide
  have e2 : strBytes ",\"B\":" = [44, 34, 66, 34, 58] := by decide
  have e3 : strBytes "\x7d" = [125] := by decide
  have hm : jsonMarshalArgs a =
      123 :: 34 :: ([65] ++ 34 :: 58 :: (formatInt a.A ++
        44 :: 34 :: ([66] ++ 34 :: 58 :: (formatInt a.B ++ [125])))) := by
    simp [jsonMarshalArgs, e1, e2, e3]
  have hlen : ∃ k, (jsonMarshalArgs a).length = k + 2 := ⟨_, by rw [hm]; simp; rfl⟩
  obtain ⟨k, hk⟩ := hlen
  have hp : parseObject (jsonMarshalArgs a) = some [([65], a.A), ([66], a.B)] := by
    unfold parseObject
    rw [hk, hm]
    have hne : ((123 :: 34 :: ([65] ++ 34 :: 58 :: (formatInt a.A ++
        44 :: 34 :: ([66] ++ 34 :: 58 :: (formatInt a.B ++ [125])))) : Bytes) == [123, 125])
        = false := by simp
    simp only [hne, Bool.false_eq_true, if_false, List.head?_cons, beq_self_eq_true, if_true,
      List.tail_cons]
    rw [parseMembers_more (k + 1) [65] _ a.A hA (by decide),
      parseMembers_last k [66] a.B hB (by decide)]
    rfl
  have k1 : keyMatches [65] "A" = true := by decide
  have k2 : keyMatches [66] "A" = false := by decide
  have k3 : keyMatches [65] "B" = false := by decide
  have k4 : keyMatches [66] "B" = true := by decide
  simp [jsonUnmarshalArgs, hp, fieldValue, k1, k2, k3, k4]

/-- Reading back the JSON of a `Reply` gives the `Reply`. -/
theorem jsonUnmarshalReply_marshal (r : Reply) (hS : isInt64 r.Sum) :
    jsonUnmarshalReply (jsonMarshalReply r) = (r, none) := by
  have e1 : strBytes "\x7b\"Sum\":" = [123, 34, 83, 117, 109, 34, 58] := by decide
  have e3 : strBytes "\x7d" = [125] := by decide
  have hm : jsonMarshalReply r =
      123 :: 34 :: ([83, 117, 109] ++ 34 :: 58 :: (formatInt r.Sum ++ [125])) := by
    simp [jsonMarshalReply, e1, e3]
  have hlen : ∃ k, (jsonMarshalReply r).length = k + 1 := ⟨_, by rw [hm]; simp; rfl⟩
  obtain ⟨k, hk⟩ := hlen
  have hp : parseObject (jsonMarshalReply r) = some [([83, 117, 109], r.Sum)] := by
    unfold parseObject
    rw [hk, hm]
    have hne : ((123 :: 34 :: ([83, 117, 109] ++ 34 :: 58 :: (formatInt r.Sum ++ [125])) : Bytes)
        == [123, 125]) = false := by simp
    simp only [hne, Bool.false_eq_true, if_false, List.head?_cons, beq_self_eq_true, if_true,
      List.tail_cons]
    rw [parseMembers_last k [83, 117, 109] r.Sum hS (by decide)]
  have k1 : keyMatches [83, 117, 109] "Sum" = true := by decide
  simp [jsonUnmarshalReply, hp, fieldValue, k1]

theorem wrapInt64_isInt64 (x : Int) : isInt64 (wrapInt64 x) := by
  unfold isInt64 wrapInt64
  omega

theorem wrapInt64_of_isInt64 (x : Int) (h : isInt64 x) : wrapInt64 x = x := by
  unfold isInt64 at h
  unfold wrapInt64
  omega

/-! ## Register, then call -/

theorem splitServiceMethod_join (name m : String) (hdot : '.' ∉ m.data) :
    splitServiceMethod (name ++ "." ++ m) = some (name, m) := by
  have hd : (name ++ "." ++ m).data.reverse = m.data.reverse ++ '.' :: name.data.reverse := by
    simp [String.data_append]
  have hall : ∀ c ∈ m.data.reverse, (c != '.') = true := by
    intro c hc
    have : c ∈ m.data := List.mem_reverse.1 hc
    simp only [bne_iff_ne, ne_eq]
    intro h
    exact hdot (h ▸ this)
  have ht : (m.data.reverse ++ '.' :: name.data.reverse).takeWhile (fun c => c != '.')
      = m.data.reverse := by
    rw [List.takeWhile_append_of_pos hall]
    simp [List.takeWhile_cons]
  unfold splitServiceMethod
  simp only [hd, ht]
  have hlen : ¬ (m.data.reverse.length = (m.data.reverse ++ '.' :: name.data.reverse).length) := by
    simp
  rw [if_neg hlen]
  have hdrop : List.drop (m.data.reverse.length + 1) (m.data.reverse ++ '.' :: name.data.reverse)
      = name.data.reverse := by
    rw [show m.data.reverse.length + 1 = (m.data.reverse ++ ['.']).length by simp,
      show m.data.reverse ++ '.' :: name.data.reverse
        = (m.data.reverse ++ ['.']) ++ name.data.reverse by simp]
    exact List.drop_left _ _
  rw [hdrop]
  simp

theorem findMethod_registered (g : ServiceMap) (name m : String) (service : Service)
    (h : Handler) (hg : g.lookup name = some service)
    (hm : service.methods.lookup m = some h) (hdot : '.' ∉ m.data) :
    findMethod g (name ++ "." ++ m) = .ok h := by
  simp [findMethod, splitServiceMethod_join name m hdot, hg, hm]

/-- A call over an open connection, of a method found in the service map of the peer: what the
method stored comes back when it returns nil, its error text comes back as a remote error
otherwise. -/
theorem call_registered (c : tlsRpcClient) (g : ServiceMap) (serviceMethod : String)
    (h : Handler) (args reply : Bytes) (hopen : c.conn.closed = false)
    (hf : findMethod g serviceMethod = .ok h) :
    (h args = .ret reply none →
      (c.ConnectToRpcServerTls g serviceMethod args).1 = .ok reply) ∧
    (∀ e : GoError, h args = .ret reply (some e) → e.Error ≠ "" →
      (c.ConnectToRpcServerTls g serviceMethod args).1 =
        .error (.wrapf ("failed to call RPC method " ++ serviceMethod)
          (.serverError e.Error))) := by
  constructor
  · intro hr
    simp [tlsRpcClient.ConnectToRpcServerTls, rpcCall, hopen, serveRequest, hf, hr]
  · intro e hr he
    simp [tlsRpcClient.ConnectToRpcServerTls, rpcCall, hopen, serveRequest, hf, hr, he]

/-- The method `Add` on the JSON of two Go `int`s: the JSON of their sum as a Go `int`. -/
theorem Add_marshal (A B : Int) (hA : isInt64 A) (hB : isInt64 B) :
    TestService.Add (jsonMarshalArgs ⟨A, B⟩) =
      .ret (jsonMarshalReply ⟨wrapInt64 (A + B)⟩) none := by
  simp [TestService.Add, jsonUnmarshalArgs_marshal ⟨A, B⟩ hA hB]

/-- C2 (counterexample). A registered method that returns an error does not give a nil error:
the call of `Failing.Fail` returns the error of the method as a remote error. And with `Add`
registered, the call with the JSON of `{A: 9223372036854775807, B: 1}` returns bytes that
decode to `Sum = -9223372036854775808`, which is not `A + B`. -/
theorem C2_counterexample :
    (tlsRpcClient.ConnectToRpcServerTls ⟨openConn "127.0.0.1:7000" "127.0.0.1:50000", []⟩
      (tlsRpcServer.RegisterMethod ⟨some (openListener "[::]:7000"), []⟩ []
        "Failing" failingService).2.2
      "Failing.Fail" []).1 =
        .error (.wrapf "failed to call RPC method Failing.Fail"
          (.serverError "no such record")) ∧
    ∃ bytes : Bytes,
      (tlsRpcClient.ConnectToRpcServerTls ⟨openConn "127.0.0.1:7000" "127.0.0.1:50000", []⟩
        (tlsRpcServer.RegisterMethod ⟨some (openListener "[::]:7000"), []⟩ []
          "TestService" TestService).2.2
        "TestService.Add" (jsonMarshalArgs ⟨9223372036854775807, 1⟩)).1 = .ok bytes ∧
      jsonUnmarshalReply bytes = (⟨-9223372036854775808⟩, none) ∧
      (jsonUnmarshalReply bytes).1.Sum ≠ 9223372036854775807 + 1 :=
  ⟨by decide, jsonMarshalReply ⟨-9223372036854775808⟩, by decide, by decide, by decide⟩

/-- C2 (amended). Let a service be registered with success under `name`, let `m` be one of its
methods, and let any further registrations follow. A call of `name.m` over an open
connection returns exactly the bytes the method stored in its reply, with a nil error,
whenever the method returns nil; when the method returns an error with a text, the call
returns an error that wraps it as a remote error. When the method is the test's `Add`, the
call with the JSON of two Go `int`s `A` and `B` returns bytes that decode to the sum as
a Go `int`, `A + B` reduced to 64 bits, which is `A + B` whenever that fits. -/
theorem C2_register_then_call (s : tlsRpcServer) (g0 : ServiceMap) (name : String)
    (service : Service) (later : List (tlsRpcServer × String × Service))
    (m : String) (h : Handler) (c : tlsRpcClient) (args reply : Bytes)
    (hreg : (s.RegisterMethod g0 name service).1 = none)
    (hm : service.methods.lookup m = some h) (hdot : '.' ∉ m.data)
    (hopen : c.conn.closed = false) :
    (h args = .ret reply none →
      (c.ConnectToRpcServerTls (registerAll (s.RegisterMethod g0 name service).2.2 later)
        (name ++ "." ++ m) args).1 = .ok reply) ∧
    (∀ e : GoError, h args = .ret reply (some e) → e.Error ≠ "" →
      (c.ConnectToRpcServerTls (registerAll (s.RegisterMethod g0 name service).2.2 later)
        (name ++ "." ++ m) args).1 =
        .error (.wrapf ("failed to call RPC method " ++ (name ++ "." ++ m))
          (.serverError e.Error))) ∧
    (h = TestService.Add → ∀ A B : Int, isInt64 A → isInt64 B →
      ∃ bytes : Bytes,
        (c.ConnectToRpcServerTls (registerAll (s.RegisterMethod g0 name service).2.2 later)
          (name ++ "." ++ m) (jsonMarshalArgs ⟨A, B⟩)).1 = .ok bytes ∧
        jsonUnmarshalReply bytes = (⟨wrapInt64 (A + B)⟩, none) ∧
        (isInt64 (A + B) → jsonUnmarshalReply bytes = (⟨A + B⟩, none))) := by
  have h1 := (RegisterName_ok g0 name service ((RegisterMethod_map s g0 name service).2.1 hreg)).1
  rw [← (RegisterMethod_map s g0 name service).1] at h1
  have h2 := registerAll_keeps later _ name service h1
  have hf := findMethod_registered _ name m service h h2 hm hdot
  refine ⟨(call_registered c _ _ h args reply hopen hf).1,
    (call_registered c _ _ h args reply hopen hf).2, ?_⟩
  intro hadd A B hA hB
  subst hadd
  refine ⟨jsonMarshalReply ⟨wrapInt64 (A + B)⟩,
    (call_registered c _ _ _ _ _ hopen hf).1 (Add_marshal A B hA hB),
    jsonUnmarshalReply_marshal _ (wrapInt64_isInt64 _), fun hs => ?_⟩
  rw [wrapInt64_of_isInt64 _ hs]
  exact jsonUnmarshalReply_marshal _ hs

theorem C2_register_then_call_witness :
    (tlsRpcClient.ConnectToRpcServerTls ⟨openConn "127.0.0.1:7000" "127.0.0.1:50000", []⟩
      (registerAll (tlsRpcServer.RegisterMethod ⟨some (openListener "[::]:7000"), []⟩ []
        "TestService" TestService).2.2 [])
      ("TestService" ++ "." ++ "Add") (strBytes "\x7b\"A\":5,\"B\":3\x7d")).1
      = .ok (strBytes "\x7b\"Sum\":8\x7d") :=
  (C2_register_then_call ⟨some (openListener "[::]:7000"), []⟩ [] "TestService" TestService []
    "Add" TestService.Add ⟨openConn "127.0.0.1:7000" "127.0.0.1:50000", []⟩
    (strBytes "\x7b\"A\":5,\"B\":3\x7d") (strBytes "\x7b\"Sum\":8\x7d")
    (by decide) (by rfl) (by decide) (by rfl)).1 (by decide)

/-! ## AES-GCM -/

theorem aesEncryptBlock_length (key block : Bytes) : (aesEncryptBlock key block).length = 16 := by
  simp [aesEncryptBlock, addRoundKey]

theorem keyStream_length (key nonce : Bytes) (n : Nat) :
    (keyStream key nonce n).length = 16 * n := by
  unfold keyStream
  induction n with
  | zero => simp
  | succ k ih =>
    rw [List.range_succ, List.map_append, List.flatten_append, List.length_append, ih]
    simp [aesEncryptBlock_length]
    omega

/-- Combining data twice with the same key stream gives the data back. -/
theorem xor_stream_twice (data : Bytes) : ∀ ks : Bytes, data.length ≤ ks.length →
    List.zipWith (fun x y => x ^^^ y) (List.zipWith (fun x y => x ^^^ y) data ks) ks = data := by
  induction data with
  | nil => intro ks _; simp
  | cons d rest ih =>
    intro ks h
    cases ks with
    | nil => simp at h
    | cons k ks1 =>
      simp only [List.zipWith_cons_cons, List.cons.injEq]
      exact ⟨Nat.xor_cancel_right k d, ih ks1 (by simpa using h)⟩

theorem gcmCrypt_length (key nonce data : Bytes) :
    (gcmCrypt key nonce data).length = data.length := by
  unfold gcmCrypt
  rw [List.length_zipWith, keyStream_length]
  omega

theorem gcmCrypt_twice (key nonce data : Bytes) :
    gcmCrypt key nonce (gcmCrypt key nonce data) = data := by
  have hl := gcmCrypt_length key nonce data
  have hstep : gcmCrypt key nonce (gcmCrypt key nonce data) =
      List.zipWith (fun x y => x ^^^ y) (gcmCrypt key nonce data)
        (keyStream key nonce ((data.length + 15) / 16)) := by
    generalize gcmCrypt key nonce data = c at hl
    unfold gcmCrypt
    rw [hl]
  rw [hstep]
  unfold gcmCrypt
  exact xor_stream_twice data _ (by rw [keyStream_length]; omega)

theorem gcmTag_length (key nonce c : Bytes) : (gcmTag key nonce c).length = 16 := by
  simp [gcmTag, natToBytes]

/-- What `Seal` returns, `Open` accepts, and gives the plaintext back. -/
theorem gcmOpen_seal (key nonce plaintext ciphertext : Bytes)
    (h : gcmSeal key nonce plaintext = .ok ciphertext) :
    nonce.length = 12 ∧ ciphertext.length = plaintext.length + 16 ∧
    gcmOpen key nonce ciphertext = .ok plaintext := by
  unfold gcmSeal at h
  by_cases hn : nonce.length ≠ gcmNonceSize
  · simp [hn] at h
  · by_cases hp : gcmMaxPlaintext < plaintext.length
    · rw [if_neg hn, if_pos hp] at h
      cases h
    · rw [if_neg hn, if_neg hp] at h
      simp only [GoResult.ok.injEq] at h
      have hlen : ciphertext.length = plaintext.length + 16 := by
        rw [← h, List.length_append, gcmCrypt_length, gcmTag_length]
      have hsub : ciphertext.length - gcmTagSize = (gcmCrypt key nonce plaintext).length := by
        rw [hlen, gcmCrypt_length]
        simp [gcmTagSize]
      have htake : ciphertext.take (ciphertext.length - gcmTagSize) = gcmCrypt key nonce plaintext := by
        rw [hsub, ← h, List.take_left]
      have hdrop : ciphertext.drop (ciphertext.length - gcmTagSize) =
          gcmTag key nonce (gcmCrypt key nonce plaintext) := by
        rw [hsub, ← h, List.drop_left]
      refine ⟨by simpa [gcmNonceSize] using hn, hlen, ?_⟩
      unfold gcmOpen
      rw [if_neg hn, if_neg (by rw [hlen]; simp [gcmTagSize]),
        if_neg (by rw [hlen]; simp only [gcmTagSize]; omega)]
      simp only [htake, hdrop, if_true, gcmCrypt_twice]

/-- C10. For every key of 16, 24 or 32 bytes, every plaintext and every behaviour of the random
source: if `EncryptAESGCM(plaintext, key)` returns `(ciphertext, nonce, nil)`, then the
nonce is not empty (it has 12 bytes), the ciphertext is not empty (it is 16 bytes longer
than the plaintext), and `DecryptAESGCM(ciphertext, nonce, key)` returns the plaintext with
a nil error. -/
theorem C10_decrypt_undoes_encrypt (rand : RandSource) (plaintext key ciphertext nonce : Bytes)
    (hkey : key.length = 16 ∨ key.length = 24 ∨ key.length = 32)
    (henc : EncryptAESGCM rand plaintext key = .ok (ciphertext, nonce)) :
    nonce ≠ [] ∧ ciphertext ≠ [] ∧ nonce.length = 12 ∧
    ciphertext.length = plaintext.length + 16 ∧
    DecryptAESGCM ciphertext nonce key = .ok plaintext := by
  have hc : NewCipher key = .ok key := by simp [NewCipher, hkey]
  unfold EncryptAESGCM at henc
  rw [hc] at henc
  simp only [NewGCM] at henc
  cases hr : readFull rand gcmNonceSize with
  | error e => rw [hr] at henc; cases henc
  | ok n =>
    rw [hr] at henc
    simp only at henc
    cases hs : gcmSeal key n plaintext with
    | err e => rw [hs] at henc; cases henc
    | panic v => rw [hs] at henc; cases henc
    | ok ct =>
      rw [hs] at henc
      simp only [GoResult.ok.injEq, Prod.mk.injEq] at henc
      obtain ⟨h1, h2⟩ := henc
      subst h1 h2
      obtain ⟨hn, hl, ho⟩ := gcmOpen_seal key n plaintext ct hs
      refine ⟨?_, ?_, hn, hl, ?_⟩
      · intro h0; rw [h0] at hn; simp at hn
      · intro h0; rw [h0] at hl; simp at hl
      · simp [DecryptAESGCM, hc, NewGCM, ho]

set_option maxRecDepth 100000 in
theorem C10_decrypt_undoes_encrypt_witness :
    DecryptAESGCM
      [0x03, 0x88, 0xda, 0xce, 0x60, 0xb6, 0xa3, 0x92, 0xf3, 0x28, 0xc2, 0xb9, 0x71, 0xb2, 0xfe,
        0x78, 0xab, 0x6e, 0x47, 0xd4, 0x2c, 0xec, 0x13, 0xbd, 0xf5, 0x3a, 0x67, 0xb2, 0x12, 0x57,
        0xbd, 0xdf]
      (List.replicate 12 0) (List.replicate 16 0) = .ok (List.replicate 16 0) :=
  (C10_decrypt_undoes_encrypt ⟨List.replicate 12 0, .new "EOF"⟩ (List.replicate 16 0)
    (List.replicate 16 0) _ _ (by decide) (by decide)).2.2.2.2

/-- The function `EncryptAESGCM` returns a ciphertext and a nonce whenever the key has a valid
length, the random source delivers twelve bytes and the plaintext is not too long. -/
theorem EncryptAESGCM_succeeds (rand : RandSource) (plaintext key : Bytes)
    (hkey : key.length = 16 ∨ key.length = 24 ∨ key.length = 32)
    (hrand : 12 ≤ rand.bytes.length) (hlen : plaintext.length ≤ gcmMaxPlaintext) :
    ∃ ciphertext, EncryptAESGCM rand plaintext key = .ok (ciphertext, rand.bytes.take 12) := by
  have hc : NewCipher key = .ok key := by simp [NewCipher, hkey]
  have hr : readFull rand gcmNonceSize = .ok (rand.bytes.take 12) := by
    simp [readFull, gcmNonceSize, hrand]
  have hn : (rand.bytes.take 12).length = gcmNonceSize := by
    simp [gcmNonceSize, hrand]
  refine ⟨gcmCrypt key (rand.bytes.take 12) plaintext ++
    gcmTag key (rand.bytes.take 12) (gcmCrypt key (rand.bytes.take 12) plaintext), ?_⟩
  unfold EncryptAESGCM
  rw [hc]
  simp only [NewGCM, hr, gcmSeal, hn, ne_eq, not_true_eq_false, if_false,
    if_neg (Nat.not_lt.2 hlen)]

theorem loadCertPool_unreadable_witness :
    loadCertPool exampleEnv "testdata/tls/missing.crt" =
      .error (.wrapf ("failed to read cert " ++ "testdata/tls/missing.crt")
        (.new ("open " ++ "testdata/tls/missing.crt" ++ ": no such file or directory"))) :=
  loadCertPool_unreadable exampleEnv "testdata/tls/missing.crt" _ (by decide)

theorem EncryptAESGCM_succeeds_witness :
    ∃ ciphertext, EncryptAESGCM ⟨List.replicate 12 0, .new "EOF"⟩ (strBytes "Message")
      (List.replicate 32 7) = .ok (ciphertext, (List.replicate 12 0).take 12) :=
  EncryptAESGCM_succeeds ⟨List.replicate 12 0, .new "EOF"⟩ (strBytes "Message")
    (List.replicate 32 7) (by decide) (by decide) (by decide)

/-! ## The parts of a domain -/

theorem splitDots_ne_nil (cs : List Char) : splitDots cs ≠ [] := by
  cases cs with
  | nil => simp [splitDots]
  | cons c rest =>
    unfold splitDots
    by_cases h : c = '.'
    · simp [h]
    · simp only [h, if_false]
      split <;> simp

/-- A text with `n` dots has `n + 1` parts. -/
theorem splitDots_length (cs : List Char) : (splitDots cs).length = cs.count '.' + 1 := by
  induction cs with
  | nil => simp [splitDots]
  | cons c rest ih =>
    unfold splitDots
    by_cases h : c = '.'
    · simp [h, ih]
    · have hc : (c == '.') = false := by simpa using h
      simp only [h, if_false, List.count_cons, hc, Bool.false_eq_true, Nat.add_zero]
      rw [← ih]
      split
      · next p ps hp => rw [hp]; simp
      · next hp => exact absurd hp (splitDots_ne_nil rest)

/-- The function `ExtractMainDomain` returns the error, with the empty string, exactly when the
domain has fewer than three parts, that is fewer than two dots; otherwise it returns the
second part with a nil error. The index `parts[1]` is always in range. -/
theorem ExtractMainDomain_spec (domain : String) :
    (Split domain).length = domain.data.count '.' + 1 ∧
    ((∃ e, ExtractMainDomain domain = .ok ("", some e)) ↔ (Split domain).length < 3) ∧
    ((Split domain).length < 3 →
      ExtractMainDomain domain = .ok ("", some (.new "domain must have at least 3 parts"))) ∧
    (3 ≤ (Split domain).length →
      ∃ part, (Split domain)[1]? = some part ∧ ExtractMainDomain domain = .ok (part, none)) ∧
    (∀ v, ExtractMainDomain domain ≠ .panic v) := by
  have hge : 3 ≤ (Split domain).length →
      ∃ part, (Split domain)[1]? = some part ∧ ExtractMainDomain domain = .ok (part, none) := by
    intro h
    have h1 : 1 < (Split domain).length := by omega
    refine ⟨(Split domain)[1], List.getElem?_eq_getElem h1, ?_⟩
    unfold ExtractMainDomain
    simp only [show ¬ (Split domain).length < 3 by omega, if_false, List.getElem?_eq_getElem h1]
  have hlt : (Split domain).length < 3 →
      ExtractMainDomain domain = .ok ("", some (.new "domain must have at least 3 parts")) := by
    intro h
    simp [ExtractMainDomain, h]
  refine ⟨by simp [Split, splitDots_length], ⟨?_, fun h => ⟨_, hlt h⟩⟩, hlt, hge, ?_⟩
  · rintro ⟨e, he⟩
    by_contra hn
    obtain ⟨part, _, hp⟩ := hge (by omega)
    rw [hp] at he
    simp at he
  · intro v hv
    by_cases h : (Split domain).length < 3
    · rw [hlt h] at hv; cases hv
    · obtain ⟨part, _, hp⟩ := hge (by omega)
      rw [hp] at hv; cases hv

/-- C11. For a domain of five parts the function does not return the middle part: for
"www.api.example.co.uk" it returns "api", the second part, while the part in the middle,
the main domain label, is "example". For "www.example.com" it returns "example", and for
"example.com" the error with the empty string. -/
theorem C11_second_part_not_middle :
    ExtractMainDomain "www.api.example.co.uk" = .ok ("api", none) ∧
    middlePart (Split "www.api.example.co.uk") = some "example" ∧
    ExtractMainDomain "www.example.com" = .ok ("example", none) ∧
    middlePart (Split "www.example.com") = some "example" ∧
    ExtractMainDomain "example.com" =
      .ok ("", some (.new "domain must have at least 3 parts")) := by
  decide

/-! ## Random strings -/

theorem letterBytes_length : letterBytes.length = 62 := by decide

theorem letterBytes_data_length : letterBytes.data.length = 62 := by decide

theorem bitLen_61 : bitLen 61 = 6 := by decide

/-- For the 62 letters `rand.Int` reads one byte a turn and keeps its six low bits: it returns
the first byte of the source whose six low bits stand for a number below 62. -/
theorem randIntLoop_62 (err : GoError) (bs : Bytes) : ∀ fuel, bs.length < fuel →
    randIntLoop 62 1 6 err fuel bs =
      match bs.dropWhile (fun x => !decide (x % 64 < 62)) with
      | [] => .error err
      | x :: rest => .ok (x % 64, rest) := by
  induction bs with
  | nil =>
    intro fuel h
    obtain ⟨f, rfl⟩ : ∃ f, fuel = f + 1 := ⟨fuel - 1, by omega⟩
    simp [randIntLoop]
  | cons x rest ih =>
    intro fuel h
    obtain ⟨f, rfl⟩ : ∃ f, fuel = f + 1 := ⟨fuel - 1, by omega⟩
    have hv : bytesToNat [x % 64] = x % 64 := by simp [bytesToNat]
    by_cases hx : x % 64 < 62
    · simp [randIntLoop, hv, hx, List.dropWhile_cons]
    · have h2 := ih f (by simpa using h)
      simp [randIntLoop, hv, hx, List.dropWhile_cons, h2]

theorem randInt_62 (r : RandSource) :
    randInt r 62 =
      match r.bytes.dropWhile (fun x => !decide (x % 64 < 62)) with
      | [] => .err r.err
      | x :: rest => .ok (x % 64, { r with bytes := rest }) := by
  have h := randIntLoop_62 r.err r.bytes (r.bytes.length + 1) (by omega)
  have hb : bitLen (62 - 1) = 6 := bitLen_61
  unfold randInt
  simp only [hb]
  norm_num
  rw [h]
  cases hd : r.bytes.dropWhile (fun x => !decide (x % 64 < 62)) with
  | nil => rfl
  | cons x rest => rfl

theorem acceptedBytes_dropWhile (bs : Bytes) :
    (bs.dropWhile (fun x => !decide (x % 64 < 62)) = [] → acceptedBytes bs = []) ∧
    (∀ x rest, bs.dropWhile (fun x => !decide (x % 64 < 62)) = x :: rest →
      x % 64 < 62 ∧ acceptedBytes bs = x :: acceptedBytes rest) := by
  induction bs with
  | nil => simp [acceptedBytes]
  | cons y ys ih =>
    by_cases hy : y % 64 < 62
    · simp [List.dropWhile_cons, hy, acceptedBytes, List.filter_cons]
    · simp only [List.dropWhile_cons, hy, decide_False, Bool.not_false, if_true, acceptedBytes,
        List.filter_cons, Bool.false_eq_true, if_false]
      exact ih

theorem letter_at (x : Nat) (h : x % 64 < 62) :
    letterBytes.data[x % 64]? = some (letterOf x) ∧ letterOf x ∈ letterBytes.data := by
  have hl : x % 64 < letterBytes.data.length := by rw [letterBytes_data_length]; exact h
  have h1 : letterBytes.data[x % 64]? = some (letterBytes.data[x % 64]) :=
    List.getElem?_eq_getElem hl
  have h2 : letterOf x = letterBytes.data[x % 64] := by
    simp [letterOf, List.getD, h1]
  rw [h2]
  exact ⟨h1, List.getElem_mem _⟩

/-- The loop of `GenerateUniqueString` takes, in order, the bytes of the source that
`rand.Int` accepts: it sets one letter for each, and meets a failure of the source when the
source has fewer of them than letters are asked for. -/
theorem fillResult_eq (rt : Runtime) (n : Nat) : ∀ (r : RandSource) (acc : List Char),
    (n ≤ (acceptedBytes r.bytes).length →
      fillResult rt n r acc =
        .ok (String.mk (acc ++ ((acceptedBytes r.bytes).take n).map letterOf), none)) ∧
    ((acceptedBytes r.bytes).length < n →
      fillResult rt n r acc = randFailure rt "failed to generate random index" r.err) := by
  induction n with
  | zero => intro r acc; simp [fillResult]
  | succ k ih =>
    intro r acc
    obtain ⟨hnil, hcons⟩ := acceptedBytes_dropWhile r.bytes
    have hr : randInt r letterBytes.length =
        match r.bytes.dropWhile (fun x => !decide (x % 64 < 62)) with
        | [] => .err r.err
        | x :: rest => .ok (x % 64, { r with bytes := rest }) := by
      rw [letterBytes_length]
      exact randInt_62 r
    cases hd : r.bytes.dropWhile (fun x => !decide (x % 64 < 62)) with
    | nil =>
      rw [hd] at hr
      simp only at hr
      simp [fillResult, hr, hnil hd]
    | cons x rest =>
      rw [hd] at hr
      simp only at hr
      obtain ⟨hx, hacc⟩ := hcons x rest hd
      obtain ⟨hget, _⟩ := letter_at x hx
      obtain ⟨ih1, ih2⟩ := ih { r with bytes := rest } (acc ++ [letterOf x])
      constructor
      · intro hle
        rw [hacc] at hle ⊢
        simp only [fillResult, hr, hget]
        rw [ih1 (by simpa using hle)]
        simp
      · intro hlt
        rw [hacc] at hlt
        simp only [fillResult, hr, hget]
        rw [ih2 (by simpa using hlt)]

/-- What `GenerateUniqueString` does for a length from 1 up to the limit of the runtime, by
what the source delivers: it returns the string of the first `length` accepted bytes after
the `length` bytes of entropy, or it meets a failure of the source before that. -/
theorem GenerateUniqueString_eq (rt : Runtime) (rand : RandSource) (length : Int)
    (h : 1 ≤ length) (hmax : length ≤ rt.maxAlloc) :
    ((length.toNat ≤ rand.bytes.length ∧
        length.toNat ≤ (acceptedBytes (rand.bytes.drop length.toNat)).length) →
      GenerateUniqueString rt rand length =
        .ok (String.mk (((acceptedBytes (rand.bytes.drop length.toNat)).take
          length.toNat).map letterOf), none)) ∧
    (¬ (length.toNat ≤ rand.bytes.length ∧
        length.toNat ≤ (acceptedBytes (rand.bytes.drop length.toNat)).length) →
      ∃ text, GenerateUniqueString rt rand length = randFailure rt text rand.err) := by
  have hl : ¬ length < 1 := by omega
  have hm : ¬ (rt.maxAlloc : Int) < length := by omega
  obtain ⟨f1, f2⟩ := fillResult_eq rt length.toNat (rand.skip length.toNat) []
  constructor
  · rintro ⟨h1, h2⟩
    simp only [GenerateUniqueString, hl, hm, if_false, readFull, h1, if_true]
    rw [f1 h2]
    simp [RandSource.skip]
  · intro hn
    by_cases h1 : length.toNat ≤ rand.bytes.length
    · have h2 : (acceptedBytes (rand.bytes.drop length.toNat)).length < length.toNat := by
        by_contra hc
        exact hn ⟨h1, by omega⟩
      refine ⟨"failed to generate random index", ?_⟩
      simp only [GenerateUniqueString, hl, hm, if_false, readFull, h1, if_true]
      exact f2 h2
    · exact ⟨"failed to generate entropy",
        by simp only [GenerateUniqueString, hl, hm, if_false, readFull, h1]⟩

theorem randFailure_cases (rt : Runtime) (text : String) (e : GoError) :
    (rt.randFatal = true ∧ randFailure rt text e = .panic randFatalMsg) ∨
    (rt.randFatal = false ∧ randFailure rt text e = .ok ("", some (.wrapf text e))) := by
  unfold randFailure
  cases rt.randFatal <;> simp

/-- C12 (counterexample). With the allocation limit of linux/amd64, `1 << 48`, the call
`GenerateUniqueString(1 << 62)` panics in `make([]byte, length)` before the random source is
read, whatever the source would deliver: no string of `length` characters is returned. -/
theorem C12_counterexample :
    GenerateUniqueString ⟨281474976710656, false⟩ ⟨[], .new "EOF"⟩ 4611686018427387904 =
      .panic "runtime error: makeslice: len out of range" ∧
    (1 : Int) ≤ 4611686018427387904 ∧
    ∀ (randFatal : Bool) (rand : RandSource),
      GenerateUniqueString ⟨281474976710656, randFatal⟩ rand 4611686018427387904 =
        .panic "runtime error: makeslice: len out of range" := by
  refine ⟨by decide, by decide, fun randFatal rand => ?_⟩
  simp [GenerateUniqueString, makesliceMsg]

/-- C12 (amended). For every integer `length`, every behaviour of the random source and every
runtime: `GenerateUniqueString(length)` returns an error and the empty string when
`length < 1`, and panics in `make` when `length` is above the allocation limit of the
runtime. For a `length` from 1 up to that limit it returns a nil error exactly when the
source delivers the `length` bytes of entropy and then `length` bytes that `rand.Int`
accepts; when the source fails before that, it returns an error and the empty string, or
the process ends where the runtime makes the failure fatal. Whenever it returns a nil error,
the string has exactly `length` characters, each one of the 62 characters of `letterBytes`;
and the only panics are the one of `make` and the fatal failure of the source, so the index
into `letterBytes` is always in bounds. -/
theorem C12_generate_unique_string (rt : Runtime) (rand : RandSource) (length : Int) :
    (length < 1 →
      GenerateUniqueString rt rand length =
        .ok ("", some (.new "length must be at least 1"))) ∧
    ((rt.maxAlloc : Int) < length →
      GenerateUniqueString rt rand length = .panic makesliceMsg) ∧
    (∀ s, GenerateUniqueString rt rand length = .ok (s, none) →
      1 ≤ length ∧ length ≤ rt.maxAlloc ∧ (s.length : Int) = length ∧
        ∀ c ∈ s.data, c ∈ letterBytes.data) ∧
    (1 ≤ length → length ≤ rt.maxAlloc →
      ((∃ s, GenerateUniqueString rt rand length = .ok (s, none)) ↔
        (length.toNat ≤ rand.bytes.length ∧
          length.toNat ≤ (acceptedBytes (rand.bytes.drop length.toNat)).length)) ∧
      ((∃ s, GenerateUniqueString rt rand length = .ok (s, none)) ∨
        (rt.randFatal = false ∧ ∃ e, GenerateUniqueString rt rand length = .ok ("", some e)) ∨
        (rt.randFatal = true ∧ GenerateUniqueString rt rand length = .panic randFatalMsg))) ∧
    (∀ v, GenerateUniqueString rt rand length = .panic v →
      ((rt.maxAlloc : Int) < length ∧ v = makesliceMsg) ∨
      (rt.randFatal = true ∧ v = randFatalMsg ∧
        ¬ (length.toNat ≤ rand.bytes.length ∧
          length.toNat ≤ (acceptedBytes (rand.bytes.drop length.toNat)).length))) ∧
    letterBytes.length = 62 := by
  have hlow : length < 1 →
      GenerateUniqueString rt rand length =
        .ok ("", some (.new "length must be at least 1")) := by
    intro h
    simp [GenerateUniqueString, h]
  have hhigh : (rt.maxAlloc : Int) < length →
      GenerateUniqueString rt rand length = .panic makesliceMsg := by
    intro h
    have h1 : ¬ length < 1 := by omega
    simp [GenerateUniqueString, h, h1]
  have hcases : 1 ≤ length → length ≤ rt.maxAlloc →
      ((¬ (length.toNat ≤ rand.bytes.length ∧
          length.toNat ≤ (acceptedBytes (rand.bytes.drop length.toNat)).length)) ∧
        ((rt.randFatal = true ∧ GenerateUniqueString rt rand length = .panic randFatalMsg) ∨
        (rt.randFatal = false ∧
          ∃ e, GenerateUniqueString rt rand length = .ok ("", some e)))) ∨
      ((length.toNat ≤ rand.bytes.length ∧
          length.toNat ≤ (acceptedBytes (rand.bytes.drop length.toNat)).length) ∧
        GenerateUniqueString rt rand length =
          .ok (String.mk (((acceptedBytes (rand.bytes.drop length.toNat)).take
            length.toNat).map letterOf), none)) := by
    intro h hmax
    obtain ⟨g1, g2⟩ := GenerateUniqueString_eq rt rand length h hmax
    by_cases hc : length.toNat ≤ rand.bytes.length ∧
        length.toNat ≤ (acceptedBytes (rand.bytes.drop length.toNat)).length
    · exact Or.inr ⟨hc, g1 hc⟩
    · obtain ⟨text, ht⟩ := g2 hc
      refine Or.inl ⟨hc, ?_⟩
      rcases randFailure_cases rt text rand.err with ⟨hf, hr⟩ | ⟨hf, hr⟩
      · exact Or.inl ⟨hf, by rw [ht, hr]⟩
      · exact Or.inr ⟨hf, _, by rw [ht, hr]⟩
  refine ⟨hlow, hhigh, ?_, ?_, ?_, letterBytes_length⟩
  · intro s hs
    by_cases h : length < 1
    · rw [hlow h] at hs; simp at hs
    · by_cases hm : (rt.maxAlloc : Int) < length
      · rw [hhigh hm] at hs; cases hs
      · have h1 : 1 ≤ length := by omega
        have h2 : length ≤ rt.maxAlloc := by omega
        rcases hcases h1 h2 with ⟨_, ⟨_, he⟩ | ⟨_, e, he⟩⟩ | ⟨⟨_, hacc⟩, he⟩
        · rw [he] at hs; cases hs
        · rw [he] at hs; simp at hs
        · rw [he] at hs
          simp only [GoResult.ok.injEq, Prod.mk.injEq, and_true] at hs
          subst hs
          refine ⟨h1, h2, ?_, ?_⟩
          · simp only [String.length, List.length_map, List.length_take]
            omega
          · intro c hc
            simp only [List.mem_map] at hc
            obtain ⟨x, hx, rfl⟩ := hc
            have hx2 : x ∈ acceptedBytes (rand.bytes.drop length.toNat) :=
              List.mem_of_mem_take hx
            have hx3 : x % 64 < 62 := by
              simpa using (List.mem_filter.1 hx2).2
            exact (letter_at x hx3).2
  · intro h1 h2
    refine ⟨⟨?_, fun hc => ?_⟩, ?_⟩
    · rintro ⟨s, hs⟩
      rcases hcases h1 h2 with ⟨_, ⟨_, he⟩ | ⟨_, e, he⟩⟩ | ⟨hc, _⟩
      · rw [he] at hs; cases hs
      · rw [he] at hs; simp at hs
      · exact hc
    · exact ⟨_, (GenerateUniqueString_eq rt rand length h1 h2).1 hc⟩
    · rcases hcases h1 h2 with ⟨_, ⟨hf, he⟩ | ⟨hf, he⟩⟩ | ⟨_, he⟩
      · exact Or.inr (Or.inr ⟨hf, he⟩)
      · exact Or.inr (Or.inl ⟨hf, he⟩)
      · exact Or.inl ⟨_, he⟩
  · intro v hv
    by_cases h : length < 1
    · rw [hlow h] at hv; cases hv
    · by_cases hm : (rt.maxAlloc : Int) < length
      · rw [hhigh hm] at hv
        simp only [GoResult.panic.injEq] at hv
        exact Or.inl ⟨hm, hv.symm⟩
      · rcases hcases (by omega) (by omega) with ⟨hc, ⟨hf, he⟩ | ⟨_, e, he⟩⟩ | ⟨_, he⟩
        · rw [he] at hv
          simp only [GoResult.panic.injEq] at hv
          exact Or.inr ⟨hf, hv.symm, hc⟩
        · rw [he] at hv; cases hv
        · rw [he] at hv; cases hv

theorem C12_generate_unique_string_witness :
    GenerateUniqueString ⟨281474976710656, false⟩
        ⟨[1, 2, 3, 0, 62, 63, 255, 61, 74, 164], .new "EOF"⟩ 3 =
      .ok ("0zA", none) ∧
    (("0zA".length : Int) = 3 ∧ ∀ c ∈ "0zA".data, c ∈ letterBytes.data) :=
  ⟨by decide,
    ((C12_generate_unique_string ⟨281474976710656, false⟩
      ⟨[1, 2, 3, 0, 62, 63, 255, 61, 74, 164], .new "EOF"⟩ 3).2.2.1
      "0zA" (by decide)).2.2⟩

end SwissKnife
